import Mathlib

/-!
Verification of the retrieval & orchestration pipeline of the
`ai-document-assistant` repository.

Each Python function that the claims touch is shallowly embedded as a Lean
definition translated directly from the source:

* `src/api/services/rate_limit.py`  → namespace `RateLimit`
  (`check_rate_limit`, `record_request`; the Redis sorted set keyed by
  `str(int(time.time()))` with the timestamp as score is modelled as a
  strictly ascending duplicate-free list of integer seconds, which is
  exactly the observable content of that sorted set).
* `src/worker/main.py`              → namespace `Worker`
  (`_chunk_text`, the row construction of `_embed_document`; Python strings
  are modelled as `List Char`).
* `src/api/services/cache.py` and `src/api/services/search.py`
                                    → namespace `SearchSvc`
  (cache keys `f"{namespace}:{org_id}:{sha256(query)}"` are modelled as the
  pair `(org_id, digest)`: the decimal rendering of `org_id` and the sha256
  hex digest are both colon-free, so two such key strings coincide iff the
  pairs coincide; the digest function is passed in as an argument `hash`.
  The WHERE clause `_text_search` assembles by f-string interpolation of
  the user-derived search terms is modelled as the literal character
  string the code builds, which is then lexed, parsed with SQL precedence
  — `OR` binds looser than `AND` — and evaluated against each `doc` row,
  with `ILIKE` as case-insensitive `LIKE`-pattern matching (`%`/`_`
  wildcards, `''` quote escape); a statement that fails to lex or parse is
  a database error, which `_vector_search` catches and turns into `[]`).
* `src/api/services/orchestrator.py` and `src/api/services/llm.py`
                                    → namespace `Orchestrator`
  (the async generator `handle_voice_query` is a pure function from the
  outcomes of its awaited collaborators to the list of events it yields; an
  exception raised by a collaborator is an `Except.error` routed to the
  top-level `except` clause, which yields a terminal `error` event).
* `_mmr_rerank` of `src/api/services/search.py` → namespace `MMR`
  (numpy float arithmetic is modelled over `ℝ`; `np.linalg.norm` is
  `Real.sqrt` of the sum of squares).
-/

namespace RateLimit

/-- One Redis sorted set `rate_limit:{org_id}[:{user_id}]` as used by
`record_request`: since the member is `str(current_time)` and the score is
`current_time`, the set is determined by its set of integer-second scores.
We keep it as an ascending duplicate-free list of integers. -/
abbrev Window := List Int

/-- `record_request` (`src/api/services/rate_limit.py:94-112`):
`ZADD key {str(now): now}`.  Adding the member for a second that is already
present only rewrites its (identical) score, so the window is unchanged;
otherwise the timestamp is inserted in order. -/
def zaddTs : Window → Int → Window
  | [], t => [t]
  | x :: xs, t =>
    if t < x then t :: x :: xs
    else if t = x then x :: xs
    else x :: zaddTs xs t

/-- `record_request` applied `n` times at the same integer second `t`. -/
def recordN (w : Window) (t : Int) : Nat → Window
  | 0 => w
  | n + 1 => zaddTs (recordN w t n) t

/-- `check_rate_limit` (`src/api/services/rate_limit.py:28-92`), after the
org defaults for `rpm`/`burst` have been resolved.  The pipeline first
removes every entry with score in `[0, now-60]` (`ZREMRANGEBYSCORE key 0
window_start`), then counts the survivors and reads them back in ascending
order; `timestamps[0]` is the head of the surviving list.  Returns
`(allowed, remaining, reset_time)`. -/
def check_rate_limit (w : Window) (now rpm burst : Int) : Bool × Int × Int :=
  let survivors := w.filter (fun t => now - 60 < t)
  let n : Int := survivors.length
  let oldestAge : Int := match survivors.head? with
    | some t0 => now - t0
    | none => 0
  -- `if current_requests >= burst:` then deny unless the oldest surviving
  -- entry is already ≥ 60s old (in which case control falls through)
  if n ≥ burst ∧ ¬ (survivors ≠ [] ∧ oldestAge ≥ 60) then
    (false, 0, 60 - oldestAge)
  -- `if current_requests >= rpm:` with the same escape hatch
  else if n ≥ rpm ∧ ¬ (survivors ≠ [] ∧ oldestAge ≥ 60) then
    (false, 0, 60 - oldestAge)
  else
    (true, max 0 (rpm - n), 60 - (now - (now - 60)))

/-- Default `rpm` from `src/api/utils/config.py` (`default_rpm`). -/
def default_rpm : Int := 60

/-- Default `burst` from `src/api/utils/config.py` (`default_burst`). -/
def default_burst : Int := 10

end RateLimit

namespace Worker

/-- Python `str.strip()` removes these characters (space, tab, newline,
vertical tab, form feed, carriage return) from both ends. -/
def pyIsSpace (c : Char) : Bool :=
  c = ' ' || c = '\t' || c = '\n' || c = Char.ofNat 11 || c = Char.ofNat 12 || c = '\r'

/-- Python `s.strip()` on a string modelled as `List Char`. -/
def pyStrip (l : List Char) : List Char :=
  ((l.dropWhile pyIsSpace).reverse.dropWhile pyIsSpace).reverse

/-- Python slice `text[s:e]` (clamping, `s ≤ e` or empty). -/
def slice (text : List Char) (s e : Nat) : List Char :=
  (text.drop s).take (e - s)

/-- Index of the last `' '` in `l`, if any. -/
def lastSpaceIdx (l : List Char) : Option Nat :=
  match l.reverse.findIdx? (fun c => c = ' ') with
  | some j => some (l.length - 1 - j)
  | none => none

/-- Python `text.rfind(' ', s, e)`: highest index of `' '` in `[s, e)`,
`-1` when there is none. -/
def pyRfindSpace (text : List Char) (s e : Nat) : Int :=
  match lastSpaceIdx (slice text s e) with
  | some j => ((s + j : Nat) : Int)
  | none => -1

/-- The window end computed by one iteration of the `_chunk_text` loop:
`end = start + chunk_size`, shrunk to just after the last space strictly
after `start` when the window does not already reach the end of the text
(`src/worker/main.py:258-265`). -/
def chunkEnd (text : List Char) (chunkSize start : Nat) : Nat :=
  let end0 := start + chunkSize
  if end0 < text.length then
    let lastSpace := pyRfindSpace text start end0
    if (start : Int) < lastSpace then lastSpace.toNat + 1 else end0
  else end0

/-- The `while start < len(text)` loop of `_chunk_text`
(`src/worker/main.py:249-274`): strip the window `text[start:end]`, append
it when non-empty, and advance `start = max(start + 1, end - overlap)`.
`start` grows by at least 1 per iteration, so `text.length` iterations
always suffice; the `fuel` argument only makes the recursion structural
and never reaches the `0` case with `start < text.length` when
`text.length - start ≤ fuel`. -/
def chunkLoop (text : List Char) (chunkSize overlap : Nat) : Nat → Nat → List (List Char)
  | _start, 0 => []
  | start, fuel + 1 =>
    if start < text.length then
      let chunk := pyStrip (slice text start (chunkEnd text chunkSize start))
      let start1 := max (start + 1) (chunkEnd text chunkSize start - overlap)
      if chunk = [] then chunkLoop text chunkSize overlap start1 fuel
      else chunk :: chunkLoop text chunkSize overlap start1 fuel
    else []

/-- `_chunk_text(text, chunk_size, overlap)` (`src/worker/main.py:249-274`). -/
def chunk_text (text : List Char) (chunkSize overlap : Nat) : List (List Char) :=
  if text.length ≤ chunkSize then [text]
  else chunkLoop text chunkSize overlap 0 text.length

/-- One persisted `Embedding` row as built by `_embed_document`
(`src/worker/main.py:183-199`). -/
structure EmbeddingRow where
  doc_id : Nat
  chunk_text : List Char
  chunk_start : Nat
  chunk_end : Nat
deriving DecidableEq, Repr

/-- The rows `_embed_document` persists for a document with text `text`
(`src/worker/main.py:183-199`): chunk with the fixed parameters
`chunk_size=800, overlap=100`, then for chunk number `i` store
`chunk_start = i * 800` and `chunk_end = min((i + 1) * 800, len(doc.text))`.
The guard `if embedding_vector:` is taken to succeed for every chunk (the
claim concerns the offsets, and `enumerate` numbers the chunks the same way
regardless). -/
def embed_document_rows (docId : Nat) (text : List Char) : List EmbeddingRow :=
  (chunk_text text 800 100).enum.map fun p =>
    { doc_id := docId
      chunk_text := p.2
      chunk_start := p.1 * 800
      chunk_end := min ((p.1 + 1) * 800) text.length }

end Worker

namespace SearchSvc

/-- One row of the `doc` table (`src/api/models/entities.py`), with the
fields `_text_search` selects.  `doc_metadata` is carried as its raw string
(JSON parsing in `_safe_parse_metadata` is modelled as an opaque payload:
no claim inspects the parsed value). -/
structure Doc where
  id : Nat
  org_id : Nat
  title : String
  source : String
  text : String
  doc_metadata : String
  created_at : Nat
deriving DecidableEq, Repr

/-- A search-result dict.  `_text_search` builds dicts with the keys
`id, score, snippet, metadata, doc_id, title` (and notably no `"vector"`
key); `_format_search_results` additionally sets `source` and reads the
absent `chunk_start`/`chunk_end` keys of a resolved row via `.get`,
yielding `None`.  Keys absent from a dict are `none` here. -/
structure Result where
  id : Nat
  score : ℚ
  snippet : String
  metadata : String
  doc_id : Nat
  title : String
  source : Option String
  chunk_start : Option Nat
  chunk_end : Option Nat
deriving DecidableEq, Repr

/-- A Redis key `f"{namespace}:{org_id}:{hash(query)}"` within one
namespace, as the pair of the rendered `org_id` and the digest.  The
decimal rendering of an integer `org_id` (or the literal `None`) and a
sha256 hex digest are both colon-free, so two key strings of the same
namespace coincide iff these pairs coincide. -/
abbrev CacheKey := Option Nat × String

/-- Redis GET against the entries written so far (later SET of the same
key shadows earlier ones). TTL expiry is not modelled: every claim here
is about lookups before expiry. -/
def lookupA {α : Type} : List (CacheKey × α) → CacheKey → Option α
  | [], _ => none
  | (k, v) :: rest, key => if k = key then some v else lookupA rest key

/-- Python falsiness of `org_id` (`if not org_id:`): `None` and `0` are
both falsy. -/
def pyFalsyOrg : Option Nat → Bool
  | none => true
  | some n => n = 0

/-- Python `str.lower()` (the queries and fields the claims exercise are
ASCII, where `Char.toLower` matches Python's case mapping). -/
def pyLower (s : String) : String := String.mk (s.data.map Char.toLower)

/-- Python `str.split()` with no separator: split on runs of whitespace,
dropping empty pieces. -/
def pySplitAux : List Char → List Char → List (List Char)
  | [], acc => if acc.isEmpty then [] else [acc.reverse]
  | c :: cs, acc =>
    if c.isWhitespace then
      (if acc.isEmpty then [] else [acc.reverse]) ++ pySplitAux cs []
    else pySplitAux cs (c :: acc)

/-- Python `s.split()` on a `String`. -/
def pySplit (s : String) : List String :=
  (pySplitAux s.toList []).map String.mk

/-- The stop-word set of `_text_search` (`src/api/services/search.py:155`). -/
def stop_words : List String :=
  ["the", "a", "an", "and", "or", "but", "in", "on", "at", "to", "for",
   "of", "with", "by", "is", "are", "was", "were", "be", "been", "have",
   "has", "had", "do", "does", "did", "will", "would", "could", "should",
   "may", "might", "can", "what", "how", "why", "when", "where", "who"]

/-- `search_terms[:3]` of `_text_search`: lowercase words of the query
that are not stop words and are longer than 2 characters, first three. -/
def search_terms_of (query : String) : List String :=
  ((pySplit (pyLower query)).filter
    (fun w => !(stop_words.contains w) && decide (2 < w.length))).take 3

/-- Is `needle` a prefix of `hay`? -/
def startsWithL (needle hay : List Char) : Bool :=
  match needle, hay with
  | [], _ => true
  | _ :: _, [] => false
  | a :: as, b :: bs => a = b && startsWithL as bs

/-- Python `needle in hay` containment on char lists (used by the window
scoring of `_create_snippet`). -/
def containsSub (needle : List Char) : List Char → Bool
  | [] => needle.isEmpty
  | c :: rest => startsWithL needle (c :: rest) || containsSub needle rest

/-- The SQL single-quote character (written via its code point so that the
source file itself contains no quote character). -/
def sqlQuote : Char := Char.ofNat 39

/-- One token of the WHERE clause `_text_search` builds: parentheses, the
keywords `AND` / `OR` / `ILIKE` (case-insensitive in SQL), `=`, a quoted
string literal (content after resolving the `''` escape), an integer
literal, a column identifier, or a `:name` bind parameter. -/
inductive SqlTok
  | lpar
  | rpar
  | tAnd
  | tOr
  | tIlike
  | tEq
  | tStr (s : List Char)
  | tNum (n : Nat)
  | tIdent (s : List Char)
  | tParam (s : List Char)

/-- Scan the body of a SQL string literal (the opening quote has already
been consumed): `''` is an escaped quote, a single quote closes the
literal, reaching the end of input without a closing quote is a lex
error.  Fuel-based so that it reduces in the kernel; the fuel is the
input length plus one, which the strictly shrinking input never
exhausts. -/
def lexStrLitF : Nat → List Char → Option (List Char × List Char)
  | 0, _ => none
  | _, [] => none
  | fuel + 1, c :: rest =>
    if c = sqlQuote then
      match rest with
      | c2 :: rest2 =>
        if c2 = sqlQuote then
          match lexStrLitF fuel rest2 with
          | some (content, r) => some (sqlQuote :: content, r)
          | none => none
        else some ([], rest)
      | [] => some ([], [])
    else
      match lexStrLitF fuel rest with
      | some (content, r) => some (c :: content, r)
      | none => none

/-- Characters SQL identifiers and number literals are made of (enough for
the identifiers `d.org_id`, `d.title`, `d.text` and integer literals that
occur in the built statements). -/
def isIdentChar (c : Char) : Bool :=
  c.isAlpha || c.isDigit || c = '.' || c = '_'

/-- Classify a lexed word: the keywords are case-insensitive, an all-digit
word is an integer literal, anything else is an identifier. -/
def wordToken (w : List Char) : SqlTok :=
  let wl := w.map Char.toLower
  if wl = "and".toList then SqlTok.tAnd
  else if wl = "or".toList then SqlTok.tOr
  else if wl = "ilike".toList then SqlTok.tIlike
  else if w.all Char.isDigit then
    SqlTok.tNum (w.foldl (fun n c => n * 10 + (c.toNat - 48)) 0)
  else SqlTok.tIdent w

/-- The lexer: each step consumes at least one character, so fuel equal to
the input length plus one never runs out; a character outside the
grammar (or an unterminated string literal) is a lex error (`none`). -/
def lexSqlF : Nat → List Char → Option (List SqlTok)
  | 0, _ => none
  | _, [] => some []
  | fuel + 1, c :: rest =>
    if c = ' ' then lexSqlF fuel rest
    else if c = '(' then (lexSqlF fuel rest).map (fun ts => SqlTok.lpar :: ts)
    else if c = ')' then (lexSqlF fuel rest).map (fun ts => SqlTok.rpar :: ts)
    else if c = '=' then (lexSqlF fuel rest).map (fun ts => SqlTok.tEq :: ts)
    else if c = sqlQuote then
      match lexStrLitF (rest.length + 1) rest with
      | none => none
      | some (content, rest2) =>
        (lexSqlF fuel rest2).map (fun ts => SqlTok.tStr content :: ts)
    else if c = ':' then
      let sp := rest.span isIdentChar
      (lexSqlF fuel sp.2).map (fun ts => SqlTok.tParam sp.1 :: ts)
    else if isIdentChar c then
      let sp := rest.span isIdentChar
      (lexSqlF fuel sp.2).map (fun ts => wordToken (c :: sp.1) :: ts)
    else none

/-- Lex a WHERE-clause string. -/
def lexSql (s : List Char) : Option (List SqlTok) :=
  lexSqlF (s.length + 1) s

/-- An operand of a comparison in the built WHERE clauses: one of the
three `doc` columns the statements mention, a literal, or the `:org_id`
bind parameter. -/
inductive SqlOperand
  | col_title
  | col_text
  | col_org
  | lit_num (n : Nat)
  | lit_str (s : List Char)
  | param_org

/-- A parsed WHERE condition. -/
inductive SqlCond
  | sAnd (a b : SqlCond)
  | sOr (a b : SqlCond)
  | sEq (l r : SqlOperand)
  | sIlike (l r : SqlOperand)

/-- Parse one operand. -/
def parseOperand : List SqlTok → Option (SqlOperand × List SqlTok)
  | SqlTok.tStr s :: ts => some (SqlOperand.lit_str s, ts)
  | SqlTok.tNum n :: ts => some (SqlOperand.lit_num n, ts)
  | SqlTok.tParam p :: ts =>
    if p = "org_id".toList then some (SqlOperand.param_org, ts) else none
  | SqlTok.tIdent w :: ts =>
    if w = "d.title".toList then some (SqlOperand.col_title, ts)
    else if w = "d.text".toList then some (SqlOperand.col_text, ts)
    else if w = "d.org_id".toList then some (SqlOperand.col_org, ts)
    else none
  | _ => none

/-- Modes of the recursive-descent parser: an OR-level expression, the
trailing `OR ...` chain after one, an AND-level expression, the trailing
`AND ...` chain, and an atom (a parenthesised expression or a
comparison). -/
inductive PMode
  | pOr
  | pOrTail (acc : SqlCond)
  | pAnd
  | pAndTail (acc : SqlCond)
  | pAtom

/-- Recursive-descent parser over the token list, with SQL precedence:
`OR` binds looser than `AND`, which binds looser than the comparisons
`=` and `ILIKE`; parentheses reset to the OR level.  Left-associative,
as in SQL.  Fuel-based so that it reduces in the kernel; running out of
fuel yields `none`, a parse error. -/
def parseF : Nat → PMode → List SqlTok → Option (SqlCond × List SqlTok)
  | 0, _, _ => none
  | fuel + 1, PMode.pOr, ts =>
    match parseF fuel PMode.pAnd ts with
    | some (c, rest) => parseF fuel (PMode.pOrTail c) rest
    | none => none
  | fuel + 1, PMode.pOrTail acc, SqlTok.tOr :: ts =>
    match parseF fuel PMode.pAnd ts with
    | some (c, rest) => parseF fuel (PMode.pOrTail (SqlCond.sOr acc c)) rest
    | none => none
  | _ + 1, PMode.pOrTail acc, ts => some (acc, ts)
  | fuel + 1, PMode.pAnd, ts =>
    match parseF fuel PMode.pAtom ts with
    | some (c, rest) => parseF fuel (PMode.pAndTail c) rest
    | none => none
  | fuel + 1, PMode.pAndTail acc, SqlTok.tAnd :: ts =>
    match parseF fuel PMode.pAtom ts with
    | some (c, rest) => parseF fuel (PMode.pAndTail (SqlCond.sAnd acc c)) rest
    | none => none
  | _ + 1, PMode.pAndTail acc, ts => some (acc, ts)
  | fuel + 1, PMode.pAtom, SqlTok.lpar :: ts =>
    (match parseF fuel PMode.pOr ts with
     | some (c, SqlTok.rpar :: rest) => some (c, rest)
     | _ => none)
  | _ + 1, PMode.pAtom, ts =>
    match parseOperand ts with
    | some (l, SqlTok.tEq :: ts2) =>
      (match parseOperand ts2 with
       | some (r, ts3) => some (SqlCond.sEq l r, ts3)
       | none => none)
    | some (l, SqlTok.tIlike :: ts2) =>
      (match parseOperand ts2 with
       | some (r, ts3) => some (SqlCond.sIlike l r, ts3)
       | none => none)
    | _ => none

/-- Lex and parse a complete WHERE-clause string; leftover tokens, a lex
error or a parse error all mean the statement is rejected by the
database. -/
def parseWhere (s : List Char) : Option SqlCond :=
  match lexSql s with
  | none => none
  | some toks =>
    match parseF (4 * toks.length + 8) PMode.pOr toks with
    | some (c, []) => some c
    | _ => none

/-- SQL `LIKE`-pattern matching: `%` matches any run of characters, `_`
any single character, anything else itself; `ILIKE` is obtained by
lowering both sides at the call site.  Fuel-based (every step shortens
pattern or text), with fuel the sum of both lengths plus one. -/
def likeMatchF : Nat → List Char → List Char → Bool
  | 0, _, _ => false
  | _ + 1, [], t => t.isEmpty
  | fuel + 1, p :: ps, t =>
    if p = '%' then
      likeMatchF fuel ps t ||
        (match t with
         | [] => false
         | _ :: ts => likeMatchF fuel (p :: ps) ts)
    else
      match t with
      | [] => false
      | c :: ts => (if p = '_' then true else p = c) && likeMatchF fuel ps ts

/-- `text LIKE pattern`. -/
def likeMatch (pattern text : List Char) : Bool :=
  likeMatchF (pattern.length + text.length + 1) pattern text

/-- A SQL value during evaluation: the statements compare integers
(`1 = 1`, `d.org_id = :org_id`) and strings; comparisons across the two
kinds do not occur in the statements built from the terms the claims
exercise and evaluate to `false`. -/
inductive SqlVal
  | vNum (n : Nat)
  | vStr (s : List Char)

/-- Evaluate an operand against one `doc` row, with `A` bound to the
`:org_id` parameter. -/
def evalOperand (o : SqlOperand) (d : Doc) (A : Nat) : SqlVal :=
  match o with
  | SqlOperand.col_title => SqlVal.vStr d.title.toList
  | SqlOperand.col_text => SqlVal.vStr d.text.toList
  | SqlOperand.col_org => SqlVal.vNum d.org_id
  | SqlOperand.lit_num n => SqlVal.vNum n
  | SqlOperand.lit_str s => SqlVal.vStr s
  | SqlOperand.param_org => SqlVal.vNum A

/-- SQL `=` on values of like kind. -/
def sqlValEq : SqlVal → SqlVal → Bool
  | SqlVal.vNum a, SqlVal.vNum b => a = b
  | SqlVal.vStr a, SqlVal.vStr b => a = b
  | _, _ => false

/-- Evaluate a parsed WHERE condition against one `doc` row: `ILIKE` is
case-insensitive `LIKE` (both sides lowered). -/
def evalCond (c : SqlCond) (d : Doc) (A : Nat) : Bool :=
  match c with
  | SqlCond.sAnd a b => evalCond a d A && evalCond b d A
  | SqlCond.sOr a b => evalCond a d A || evalCond b d A
  | SqlCond.sEq l r => sqlValEq (evalOperand l d A) (evalOperand r d A)
  | SqlCond.sIlike l r =>
    match evalOperand l d A, evalOperand r d A with
    | SqlVal.vStr s, SqlVal.vStr p =>
      likeMatch (p.map Char.toLower) (s.map Char.toLower)
    | _, _ => false

/-- The per-term condition string of `_text_search`
(`src/api/services/search.py:162`): the f-string
`(d.title ILIKE ...term... OR d.text ILIKE ...term...)` with the term
spliced verbatim between `%` wildcards inside single quotes. -/
def termCondition (t : List Char) : List Char :=
  "(d.title ILIKE ".toList ++ [sqlQuote, '%'] ++ t ++ ['%', sqlQuote] ++
    " OR d.text ILIKE ".toList ++ [sqlQuote, '%'] ++ t ++ ['%', sqlQuote] ++
    ")".toList

/-- The complete WHERE clause `_text_search` builds
(`src/api/services/search.py:134-169`): `WHERE 1=1`, then
`" AND " + " AND ".join(conditions)` where `conditions` is the org filter
followed — when there are usable search terms — by the parenthesised
`" OR ".join` of the per-term conditions. -/
def whereClause (terms : List (List Char)) : List Char :=
  let conditions : List (List Char) :=
    ["d.org_id = :org_id".toList] ++
      (if terms.isEmpty then [] else
        ["(".toList ++ List.intercalate " OR ".toList (terms.map termCondition) ++
          ")".toList])
  "1=1 AND ".toList ++ List.intercalate " AND ".toList conditions

/-- `_text_search` (`src/api/services/search.py:110-202`): `return []`
when `org_id` is falsy (after printing a warning — no exception is
raised); otherwise build the WHERE clause by f-string from the filtered
search terms, run it — rows are the documents the parsed condition
evaluates to true on, `ORDER BY created_at DESC LIMIT k` — and format
each row with the fixed `0.5` similarity as its score and the full
document text as the snippet.  A statement that fails to lex or parse
raises in the database driver; `_vector_search` catches the exception and
returns `[]`. -/
def text_search (docs : List Doc) (query : String) (k : Nat) (orgId : Option Nat) :
    List Result :=
  if pyFalsyOrg orgId then []
  else
    let terms := (search_terms_of query).map String.toList
    match parseWhere (whereClause terms) with
    | none => []
    | some cond =>
      let rows := docs.filter (fun d => evalCond cond d (orgId.getD 0))
      let rows := (List.insertionSort (fun a b => b.created_at ≤ a.created_at) rows).take k
      rows.map (fun d =>
        { id := d.id
          score := (1 : ℚ)/2
          snippet := d.text
          metadata := d.doc_metadata
          doc_id := d.id
          title := d.title
          source := none
          chunk_start := none
          chunk_end := none })

/-- A resolved document dict as built by `_get_documents_by_ids`
(`src/api/services/search.py:305-323`). -/
structure ResolvedDoc where
  id : Nat
  title : String
  source : String
  text : String
  metadata : String
  similarity : ℚ
  mmr_score : ℚ
deriving DecidableEq, Repr

/-- `_get_documents_by_ids`: `db.query(Doc).filter(Doc.id.in_(doc_ids))`
— note: no org filter here; isolation on the cache-hit path rests on the
cached id lists being tenant-scoped.  Cached rows get
`similarity = 1.0` and `mmr_score = 1.0`. -/
def get_documents_by_ids (docs : List Doc) (docIds : List Nat) : List ResolvedDoc :=
  (docs.filter (fun d => docIds.contains d.id)).map fun d =>
    { id := d.id, title := d.title, source := d.source, text := d.text,
      metadata := d.doc_metadata, similarity := 1, mmr_score := 1 }

/-- `range(0, n, step)` for Python (empty when `step` would be `0`, which
cannot happen for `max_length = 200`). -/
def pyRangeStep (n step : Nat) : List Nat :=
  if step = 0 then [] else (List.range ((n + step - 1) / step)).map (· * step)

/-- The window-scanning loop of `_create_snippet`: slide a `maxLength`
window by `max_length // 2`, score it by the number of query terms it
contains, and keep the first window with a strictly better score. -/
def bestWindowStart (textLower : List Char) (terms : List (List Char)) (maxLength : Nat) :
    Nat :=
  let starts := pyRangeStep (textLower.length - maxLength) (maxLength / 2)
  (starts.foldl
    (fun acc i =>
      let window := Worker.slice textLower i (i + maxLength)
      let score := (terms.filter (fun t => containsSub t window)).length
      if acc.2 < score then (i, score) else acc)
    (0, 0)).1

/-- `_create_snippet` (`src/api/services/search.py:351-379`). -/
def create_snippet (text query : String) (maxLength : Nat) : String :=
  if text.length ≤ maxLength then text
  else
    let queryTerms := (pySplit (pyLower query)).map String.toList
    let bp := bestWindowStart (pyLower text).toList queryTerms maxLength
    let snip := String.mk (Worker.slice text.toList bp (bp + maxLength))
    let snip := if 0 < bp then "..." ++ snip else snip
    let snip := if bp + maxLength < text.length then snip ++ "..." else snip
    snip

/-- `_format_search_results` (`src/api/services/search.py:325-349`),
applied to resolved rows on the cache-hit path: `score` is
`result.get("similarity", result.get("mmr_score", 0))`, the snippet is
rebuilt from the current document text, and the absent
`chunk_start`/`chunk_end` keys resolve to `None`. -/
def format_search_results (results : List ResolvedDoc) (query : String) : List Result :=
  results.map fun r =>
    { id := r.id
      score := r.similarity
      snippet := create_snippet r.text query 200
      metadata := r.metadata
      doc_id := r.id
      title := r.title
      source := some r.source
      chunk_start := none
      chunk_end := none }

/-- The mutable store the search service touches: the `doc` table (ids
handed out by a monotone sequence, as a SQL sequence does) and the
`search_cache:` Redis namespace. -/
structure SysState where
  docs : List Doc
  nextId : Nat
  searchCache : List (CacheKey × List Nat)

/-- `get_search_cache` (`src/api/services/cache.py:67-74`). -/
def get_search_cache (st : SysState) (hash : String → String) (query : String)
    (orgId : Option Nat) : Option (List Nat) :=
  lookupA st.searchCache (orgId, hash query)

/-- `set_search_cache` (`src/api/services/cache.py:76-82`). -/
def set_search_cache (st : SysState) (hash : String → String) (query : String)
    (docIds : List Nat) (orgId : Option Nat) : SysState :=
  { st with searchCache := ((orgId, hash query), docIds) :: st.searchCache }

/-- `get_response_cache` (`src/api/services/cache.py:34-41`); the payload
type is abstract (a pickled dict in the source). -/
def get_response_cache {α : Type} (store : List (CacheKey × α)) (hash : String → String)
    (query : String) (orgId : Option Nat) : Option α :=
  lookupA store (orgId, hash query)

/-- `set_response_cache` (`src/api/services/cache.py:43-49`). -/
def set_response_cache {α : Type} (store : List (CacheKey × α)) (hash : String → String)
    (query : String) (response : α) (orgId : Option Nat) : List (CacheKey × α) :=
  ((orgId, hash query), response) :: store

/-- The fresh-search path of `search` (`src/api/services/search.py:49-81`):
`if not query_embedding: return []`; `_vector_search` currently always
delegates to `_text_search` (vector search is disabled in the source), and
the rows it returns carry no `"vector"` key, so the
`"vector" in similar_embeddings[0]` test is false and the MMR branch is
skipped in favour of `similar_embeddings[:k]`; non-empty results are
written to the search cache as their ordered `doc_id` list before being
returned. -/
def searchFresh (hash : String → String) (st : SysState) (query : String) (k : Nat)
    (orgId : Option Nat) (qEmb : List ℚ) : List Result × SysState :=
  if qEmb.isEmpty then ([], st)
  else
    let similar := text_search st.docs query (k * 2) orgId
    if similar.isEmpty then ([], st)
    else
      let reranked := similar.take k
      (reranked, set_search_cache st hash query (reranked.map (fun r => r.doc_id)) orgId)

/-- `search` (`src/api/services/search.py:23-81`): check the
organization-scoped search cache first (`if cached_results:` — an empty
cached list is falsy and falls through), resolve cached ids to current
rows via `_get_documents_by_ids` and format them; otherwise run the fresh
path.  The query embedding obtained from the vectorizer is passed in as
`qEmb` (`if not query_embedding:` sees the empty list as falsy). -/
def search (hash : String → String) (st : SysState) (query : String) (k : Nat)
    (orgId : Option Nat) (qEmb : List ℚ) : List Result × SysState :=
  match get_search_cache st hash query orgId with
  | some cachedResults =>
    if cachedResults.isEmpty then searchFresh hash st query k orgId qEmb
    else (format_search_results (get_documents_by_ids st.docs (cachedResults.take k)) query, st)
  | none => searchFresh hash st query k orgId qEmb

/-- Document creation (`POST /corpus/doc`): a new row owned by one
organization, with a fresh id from the sequence. -/
def createDoc (st : SysState) (orgId : Nat) (title source text metadata : String)
    (createdAt : Nat) : SysState :=
  { st with
    docs := { id := st.nextId, org_id := orgId, title := title, source := source,
              text := text, doc_metadata := metadata, created_at := createdAt } :: st.docs
    nextId := st.nextId + 1 }

/-- Empty initial store. -/
def emptyState : SysState := { docs := [], nextId := 1, searchCache := [] }

/-- States reachable by the operations that touch the doc table and the
search cache: document creation and `search` invocations (with arbitrary
queries, tenants and vectorizer outcomes). -/
inductive Reach (hash : String → String) : SysState → Prop
  | start : Reach hash emptyState
  | createStep {st : SysState} (orgId : Nat) (title source text metadata : String)
      (createdAt : Nat) : Reach hash st →
      Reach hash (createDoc st orgId title source text metadata createdAt)
  | searchStep {st : SysState} (query : String) (k : Nat) (orgId : Option Nat)
      (qEmb : List ℚ) : Reach hash st →
      Reach hash (search hash st query k orgId qEmb).2

end SearchSvc

namespace Orchestrator

/-- Event types of the streaming protocol
(`handle_voice_query`, `src/api/services/orchestrator.py`). -/
inductive EvType
  | status
  | transcript
  | token
  | chat_response
  | final
  | error
deriving DecidableEq, Repr

/-- One yielded event.  The source dicts also carry a `timestamp`
(`time.time()`) and, for `final`/`chat_response`, a payload dict with
sources/latency; only the event type and its principal text matter to the
claims, so `data` abbreviates that payload. -/
structure Event where
  type : EvType
  data : String
deriving DecidableEq, Repr

/-- Result dict of `stt_service.transcribe_audio`. -/
structure Transcription where
  text : String
  confidence : ℚ
  error : Option String
deriving Repr

/-- One source entry extracted from a search result (step 6). -/
structure SourceInfo where
  title : String
  source : String
  snippet : String
  score : ℚ
deriving DecidableEq, Repr

/-- A response-cache payload (`{"response": ..., "sources": ...}`). -/
structure CachedResponse where
  response : String
  sources : List SourceInfo
deriving Repr

/-- Outcomes of every awaited collaborator of one `handle_voice_query`
invocation.  `Except.error e` models the awaited call raising an
exception with message `e`; the generator's `try`/`except` turns any such
exception into a terminal `error` event.  The LLM stream is described by
the tokens the primary model yields before (possibly) failing, whether it
fails, and the same for the fallback model, mirroring
`stream_chat` (`src/api/services/llm.py:52-115`). -/
structure Collab where
  orgId : Option Nat
  userId : Option Nat
  stt : Except String Transcription
  rateCheck : Except String (Bool × Int × Int)
  recordReq : Except String Unit
  respCacheGet : Except String (Option CachedResponse)
  searchRes : Except String (List SearchSvc.Result)
  primaryTokens : List String
  primaryFails : Bool
  fallbackEnabled : Bool
  fallbackTokens : List String
  fallbackFails : Bool
  respCacheSet : Except String Unit

/-- Python truthiness of `org_id` (`if org_id:`). -/
def pyTruthyOrg : Option Nat → Bool
  | none => false
  | some n => decide (n ≠ 0)

/-- Python truthiness of `transcription.get("error")`. -/
def pyTruthyStrOpt : Option String → Bool
  | none => false
  | some s => decide (s ≠ "")

/-- The terminal user-visible string `stream_chat` yields when generation
fails on all enabled models (`src/api/services/llm.py:106,109`). -/
def errSentinel : String := "Error: Unable to generate response. Please try again later."

/-- The token stream produced by `stream_chat`
(`src/api/services/llm.py:52-115`): tokens from the primary model; if the
primary raises (including a breaker-open error), tokens already yielded
stay yielded and the fallback model is streamed when
`settings.enable_fallback_llm`, else the error sentinel is yielded; if the
fallback also raises, its partial tokens are followed by the sentinel.
The `finally:` block only logs and raises nothing. -/
def stream_chat_tokens (c : Collab) : List String :=
  c.primaryTokens ++
    (if c.primaryFails then
      (if c.fallbackEnabled then
        c.fallbackTokens ++ (if c.fallbackFails then [errSentinel] else [])
      else [errSentinel])
    else [])

/-- Steps 5–7 of `handle_voice_query`
(`src/api/services/orchestrator.py:126-191`): stream the generator tokens
as `token` events, then (when the accumulated text is non-empty and does
not start with `"Error:"`) write the response cache, then yield the
`final` event.  A failing cache write raises into the top-level handler. -/
def stageGenerate (c : Collab) (acc : List Event) : List Event :=
  let acc := acc ++ [{ type := .status, data := "Generating response..." }]
  let toks := stream_chat_tokens c
  let acc := acc ++ toks.map (fun t => { type := .token, data := t })
  let responseText := String.join toks
  if responseText ≠ "" ∧ ¬ responseText.startsWith "Error:" then
    match c.respCacheSet with
    | .error e => acc ++ [{ type := .error, data := "An error occurred: " ++ e }]
    | .ok _ => acc ++ [{ type := .final, data := responseText }]
  else acc ++ [{ type := .final, data := responseText }]

/-- Step 4 of `handle_voice_query`
(`src/api/services/orchestrator.py:102-124`): a falsy `org_id` terminates
with an `error` event; an empty search result adds a status event and
proceeds to generation. -/
def stageSearch (c : Collab) (acc : List Event) : List Event :=
  if !(pyTruthyOrg c.orgId) then
    acc ++ [{ type := .error, data := "Organization ID is required for security" }]
  else
    match c.searchRes with
    | .error e => acc ++ [{ type := .error, data := "An error occurred: " ++ e }]
    | .ok results =>
      let acc := if results.isEmpty then
          acc ++ [{ type := .status,
                    data := "No relevant documents found. Generating response..." }]
        else acc
      stageGenerate c acc

/-- Step 3 of `handle_voice_query`
(`src/api/services/orchestrator.py:84-100`): a response-cache hit yields
a terminal `chat_response` event (with `cached=True`). -/
def stageCacheCheck (c : Collab) (acc : List Event) : List Event :=
  let acc := acc ++ [{ type := .status, data := "Searching for relevant information..." }]
  match c.respCacheGet with
  | .error e => acc ++ [{ type := .error, data := "An error occurred: " ++ e }]
  | .ok (some cached) => acc ++ [{ type := .chat_response, data := cached.response }]
  | .ok none => stageSearch c acc

/-- Step 2 of `handle_voice_query`
(`src/api/services/orchestrator.py:70-82`): rate limits are consulted only
when `org_id` is truthy; a denial terminates with an `error` event,
otherwise the request is recorded and control proceeds. -/
def stageRate (c : Collab) (acc : List Event) : List Event :=
  if pyTruthyOrg c.orgId then
    match c.rateCheck with
    | .error e => acc ++ [{ type := .error, data := "An error occurred: " ++ e }]
    | .ok (allowed, _remaining, reset) =>
      if !allowed then
        acc ++ [{ type := .error,
                  data := "Rate limit exceeded. Try again in " ++ toString reset ++ " seconds." }]
      else
        match c.recordReq with
        | .error e => acc ++ [{ type := .error, data := "An error occurred: " ++ e }]
        | .ok _ => stageCacheCheck c acc
  else stageCacheCheck c acc

/-- `handle_voice_query` (`src/api/services/orchestrator.py:21-199`) as a
function from collaborator outcomes to the list of yielded events.  The
whole body runs inside `try: ... except Exception as e:` which yields a
terminal `error` event, so a collaborator exception after some yielded
events appends the `error` event to them. -/
def handle_voice_query (c : Collab) : List Event :=
  let acc := [{ type := EvType.status, data := "Transcribing audio..." }]
  match c.stt with
  | .error e => acc ++ [{ type := .error, data := "An error occurred: " ++ e }]
  | .ok tr =>
    if pyTruthyStrOpt tr.error then
      acc ++ [{ type := .error,
                data := "Transcription failed: " ++ tr.error.getD "" }]
    else
      stageRate c (acc ++ [{ type := .transcript, data := tr.text }])

/-- The last event of a stream is terminal. -/
def endsTerminal (evs : List Event) : Prop :=
  ∃ e, evs.getLast? = some e ∧
    (e.type = EvType.final ∨ e.type = EvType.chat_response ∨ e.type = EvType.error)

end Orchestrator

namespace MMR

/-- A candidate dict as consumed by `_mmr_rerank`
(`src/api/services/search.py:220-303`): its `"vector"` entry either
parses (via `json.loads` for strings) to a vector — `some v` — or raises
and is skipped when `candidate_vectors` is built — `none`.  The other
dict entries do not influence the algorithm and are bundled into `tag`. -/
structure Candidate where
  vector : Option (List ℝ)
  tag : String

/-- `np.dot` on equal-length vectors. -/
def dot : List ℝ → List ℝ → ℝ
  | [], _ => 0
  | _, [] => 0
  | x :: xs, y :: ys => x * y + dot xs ys

/-- `np.linalg.norm v` = `sqrt (v ⬝ v)`. -/
noncomputable def norm2 (v : List ℝ) : ℝ := Real.sqrt (dot v v)

/-- `np.dot(x, y) / (np.linalg.norm(x) * np.linalg.norm(y))`.  The float
arithmetic of the source is read over `ℝ` (division by a zero norm, a
NaN in numpy, is the junk value `0` here; no claim exercises it). -/
noncomputable def cossim (x y : List ℝ) : ℝ := dot x y / (norm2 x * norm2 y)

/-- Maximum of the non-empty list `x :: xs` (Python `max`). -/
noncomputable def listMax1 : ℝ → List ℝ → ℝ
  | x, [] => x
  | x, y :: ys => max x (listMax1 y ys)

open Classical in
/-- `np.argmax` on the non-empty list `x :: xs`: the first index
attaining the maximum. -/
noncomputable def argmaxIdx : ℝ → List ℝ → ℕ
  | _, [] => 0
  | x, y :: ys => if listMax1 y ys ≤ x then 0 else argmaxIdx y ys + 1

open Classical in
/-- Python `max(p :: rest, key=score)`: the first pair attaining the
maximal score. -/
noncomputable def pickBest : (ℕ × ℝ) → List (ℕ × ℝ) → (ℕ × ℝ)
  | p, [] => p
  | p, q :: rest =>
    let b := pickBest q rest
    if b.2 ≤ p.2 then p else b

/-- `candidate_vectors`: the parseable vectors, in order, invalid ones
skipped (`src/api/services/search.py:237-247`). -/
def parsedVectors (cands : List Candidate) : List (List ℝ) :=
  cands.filterMap (fun c => c.vector)

open Classical in
/-- The selection loop of `_mmr_rerank`
(`src/api/services/search.py:267-294`), run for
`min(k - 1, len(remaining))` iterations (the `fuel`): for each remaining
index compute `λ·relevance + (1-λ)·diversity` where `relevance` is its
similarity to the query and `diversity` is
`1 - max(similarity to each selected index)` (`0` if nothing is selected),
append the first best-scoring index to `selected` and remove it from
`remaining`. -/
noncomputable def mmrLoop (lam : ℝ) (sims : List ℝ) (vecs : List (List ℝ)) :
    List ℕ → List ℕ → ℕ → List ℕ
  | selected, _, 0 => selected
  | selected, [], _ + 1 => selected
  | selected, r0 :: rrest, fuel + 1 =>
    let scores := (r0 :: rrest).map (fun idx =>
      let relevance := sims.getD idx 0
      let diversity : ℝ :=
        match selected.map (fun s => cossim (vecs.getD idx []) (vecs.getD s [])) with
        | [] => 0
        | d :: ds => 1 - listMax1 d ds
      (idx, lam * relevance + (1 - lam) * diversity))
    let best := (pickBest (scores.headI) scores.tail).1
    mmrLoop lam sims vecs (selected ++ [best]) ((r0 :: rrest).erase best) fuel

/-- `_mmr_rerank(query_vector, candidates, k)`
(`src/api/services/search.py:220-303`), with the instance field
`self.mmr_lambda` (set to `0.7` in `SearchService.__init__`) abstracted as
the parameter `lam`.  Empty candidate lists and candidate lists without a
single parseable vector return `[]`; the first selected index is
`np.argmax` of the similarities to the query; each selected index yields
the candidate dict copied with `mmr_score = similarities_to_query[idx]`
(the source indexes `candidates[idx]` with positions computed over
`candidate_vectors`, which coincide whenever every vector parses). -/
noncomputable def mmr_rerank (lam : ℝ) (queryVector : List ℝ)
    (candidates : List Candidate) (k : ℕ) : List (Candidate × ℝ) :=
  if candidates.isEmpty then []
  else
    let vecs := parsedVectors candidates
    if vecs.isEmpty then []
    else
      let sims := vecs.map (fun v => cossim queryVector v)
      let firstIdx :=
        match sims with
        | [] => 0
        | s :: ss => argmaxIdx s ss
      let remaining := (List.range candidates.length).erase firstIdx
      let sel := mmrLoop lam sims vecs [firstIdx] remaining (min (k - 1) remaining.length)
      sel.map (fun idx => (candidates.getD idx ⟨none, ""⟩, sims.getD idx 0))

/-- `self.mmr_lambda` as set in `SearchService.__init__`
(`src/api/services/search.py:18-21`). -/
noncomputable def default_mmr_lambda : ℝ := 0.7

end MMR

namespace RateLimit

theorem mem_zaddTs {w : Window} {t a : Int} :
    a ∈ zaddTs w t ↔ a = t ∨ a ∈ w := by
  induction w with
  | nil => simp [zaddTs]
  | cons x xs ih =>
    by_cases h1 : t < x
    · simp [zaddTs, h1]
    · by_cases h2 : t = x
      · subst h2
        simp [zaddTs, h1]
      · simp only [zaddTs, if_neg h1, if_neg h2, List.mem_cons, ih]
        tauto

theorem length_zaddTs_of_not_mem {w : Window} {t : Int} (h : t ∉ w) :
    (zaddTs w t).length = w.length + 1 := by
  induction w with
  | nil => simp [zaddTs]
  | cons x xs ih =>
    simp only [List.mem_cons, not_or] at h
    by_cases h1 : t < x
    · simp [zaddTs, h1]
    · simp [zaddTs, h1, h.1, ih h.2]

theorem zaddTs_idem (w : Window) (t : Int) :
    zaddTs (zaddTs w t) t = zaddTs w t := by
  induction w with
  | nil => simp [zaddTs]
  | cons x xs ih =>
    by_cases h1 : t < x
    · simp [zaddTs, h1, lt_irrefl]
    · by_cases h2 : t = x
      · subst h2; simp [zaddTs, h1]
      · simp [zaddTs, h1, h2, ih]

theorem recordN_succ_eq_zaddTs (w : Window) (t : Int) (n : Nat) :
    recordN w t (n + 1) = zaddTs w t := by
  induction n with
  | zero => rfl
  | succ m ih =>
    show zaddTs (recordN w t (m + 1)) t = zaddTs w t
    rw [ih, zaddTs_idem]

theorem head?_zaddTs (w : Window) (t : Int) :
    (zaddTs w t).head? = some t ∨ (zaddTs w t).head? = w.head? := by
  cases w with
  | nil => simp [zaddTs]
  | cons x xs =>
    by_cases h1 : t < x
    · simp [zaddTs, h1]
    · by_cases h2 : t = x
      · subst h2; simp [zaddTs, h1]
      · simp [zaddTs, h1, h2]

theorem chain_lt_zaddTs {w : Window} {t : Int} (h : w.Chain' (· < ·)) :
    (zaddTs w t).Chain' (· < ·) := by
  induction w with
  | nil => simp [zaddTs]
  | cons x xs ih =>
    rcases List.chain'_cons'.mp h with ⟨hx, hxs⟩
    by_cases h1 : t < x
    · simp only [zaddTs, if_pos h1]
      refine List.chain'_cons'.mpr ⟨fun y hy => ?_, List.chain'_cons'.mpr ⟨hx, hxs⟩⟩
      simp only [List.head?_cons, Option.mem_def, Option.some.injEq] at hy
      omega
    · by_cases h2 : t = x
      · subst h2; simpa [zaddTs, h1] using List.chain'_cons'.mpr ⟨hx, hxs⟩
      · simp only [zaddTs, if_neg h1, if_neg h2]
        refine List.chain'_cons'.mpr ⟨fun y hy => ?_, ih hxs⟩
        rcases head?_zaddTs xs t with heq | heq
        · rw [heq] at hy; simp at hy; omega
        · rw [heq] at hy; exact hx y hy

theorem mem_foldl_zaddTs {ts : List Int} {w : Window} {a : Int} :
    a ∈ ts.foldl zaddTs w ↔ a ∈ w ∨ a ∈ ts := by
  induction ts generalizing w with
  | nil => simp
  | cons t ts ih =>
    simp only [List.foldl_cons, ih, mem_zaddTs, List.mem_cons]
    tauto

theorem length_foldl_zaddTs {ts : List Int} {w : Window}
    (hnd : ts.Nodup) (hdisj : ∀ t ∈ ts, t ∉ w) :
    (ts.foldl zaddTs w).length = w.length + ts.length := by
  induction ts generalizing w with
  | nil => simp
  | cons t ts ih =>
    simp only [List.foldl_cons, List.length_cons]
    rcases List.nodup_cons.mp hnd with ⟨htts, hnd'⟩
    rw [ih hnd' ?_, length_zaddTs_of_not_mem (hdisj t (List.mem_cons_self t ts))]
    · omega
    · intro u hu hmem
      rcases mem_zaddTs.mp hmem with rfl | h
      · exact htts hu
      · exact hdisj u (List.mem_cons_of_mem t hu) h

theorem chain_lt_foldl_zaddTs {ts : List Int} {w : Window}
    (h : w.Chain' (· < ·)) : (ts.foldl zaddTs w).Chain' (· < ·) := by
  induction ts generalizing w with
  | nil => exact h
  | cons t ts ih => exact ih (chain_lt_zaddTs h)


theorem foldl_zaddTs_nodup (ts : List Int) : (ts.foldl zaddTs []).Nodup := by
  have hch : (ts.foldl zaddTs []).Chain' (· < ·) :=
    chain_lt_foldl_zaddTs (by simp)
  exact (List.chain'_iff_pairwise.mp hch).imp ne_of_lt

/-- C9: `record_request` stores the integer-second timestamp as both the
sorted-set member and its score, so for a given key all `record_request`
calls within the same wall-clock second collapse into a single window
entry: `n + 1` calls at second `t` leave the window exactly as one call
does (and, from an empty window, as the single entry `[t]`); any sequence
of records yields a duplicate-free window, so `check_rate_limit` counts at
most one request per distinct second, and its verdict after `n + 1`
same-second records equals its verdict after one. -/
theorem c9_same_second_requests_collapse (w : Window) (t now rpm burst : Int)
    (n : Nat) (ts : List Int) :
    recordN w t (n + 1) = zaddTs w t ∧
    recordN [] t (n + 1) = [t] ∧
    (ts.foldl zaddTs []).Nodup ∧
    check_rate_limit (recordN w t (n + 1)) now rpm burst =
      check_rate_limit (zaddTs w t) now rpm burst := by
  refine ⟨recordN_succ_eq_zaddTs w t n, ?_, foldl_zaddTs_nodup ts, ?_⟩
  · rw [recordN_succ_eq_zaddTs]; rfl
  · rw [recordN_succ_eq_zaddTs]

/-- C3 (amended): after `record_request` calls at `R` *distinct* integer
seconds, all inside the trailing 60-second window of a check at time `T`,
`check_rate_limit` at `T` with `rpm = R` denies (for every burst value);
and once more than 60 seconds have elapsed past *every* (i.e. past the
most recent) recorded timestamp, a check with the same `rpm` and any
`burst ≥ 1` allows again. -/
theorem c3_rate_limit_deny_then_allow (ts : List Int) (T T2 burst : Int)
    (hne : ts ≠ []) (hnd : ts.Nodup)
    (hwin : ∀ t ∈ ts, T - 60 < t ∧ t ≤ T)
    (hburst : 1 ≤ burst)
    (hexp : ∀ t ∈ ts, t + 60 < T2) :
    (check_rate_limit (ts.foldl zaddTs []) T (ts.length : Int) burst).1 = false ∧
    (check_rate_limit (ts.foldl zaddTs []) T2 (ts.length : Int) burst).1 = true := by
  set w := ts.foldl zaddTs [] with hw
  have hmem : ∀ a ∈ w, a ∈ ts := by
    intro a ha
    rcases mem_foldl_zaddTs.mp ha with h | h
    · exact absurd h (List.not_mem_nil a)
    · exact h
  have hlen : w.length = ts.length := by
    rw [hw, length_foldl_zaddTs hnd (fun t _ h => List.not_mem_nil t h)]
    simp
  have hwne : w ≠ [] := by
    intro h
    rw [h] at hlen
    exact hne (List.length_eq_zero.mp hlen.symm)
  obtain ⟨t0, rest, hcons⟩ := List.exists_cons_of_ne_nil hwne
  constructor
  · -- the immediate check: every entry survives expiry and the oldest is
    -- younger than 60s, so one of the two deny branches fires
    have hfil : w.filter (fun t => decide (T - 60 < t)) = w :=
      List.filter_eq_self.mpr fun a ha => by
        simpa using (hwin a (hmem a ha)).1
    have ht0 : t0 ∈ w := by rw [hcons]; exact List.mem_cons_self _ _
    have hage : T - t0 < 60 := by
      have := (hwin t0 (hmem t0 ht0)).1
      omega
    rw [hcons] at hfil
    simp only [check_rate_limit, hcons, hfil, List.head?_cons]
    split
    · rfl
    · split
      · rfl
      · rename_i h1 h2
        exfalso
        apply h2
        constructor
        · have hlen2 : ((t0 :: rest).length : Int) = (ts.length : Int) := by
            rw [← hcons, hlen]
          omega
        · rintro ⟨-, hold⟩
          omega
  · -- the late check: every entry is expired, the window is empty, and an
    -- empty window passes both thresholds when rpm ≥ 1 and burst ≥ 1
    have hfil2 : w.filter (fun t => decide (T2 - 60 < t)) = [] := by
      rw [List.filter_eq_nil_iff]
      intro a ha
      have h := hexp a (hmem a ha)
      simp only [decide_eq_true_eq]
      omega
    have hrpm : (1 : Int) ≤ (ts.length : Int) := by
      have : ts.length ≠ 0 := fun h => hne (List.length_eq_zero.mp h)
      omega
    simp only [check_rate_limit, hfil2]
    split
    · rename_i h1
      exfalso
      rcases h1 with ⟨hc, -⟩
      simp only [List.length_nil] at hc
      omega
    · split
      · rename_i h1 h2
        exfalso
        rcases h2 with ⟨hc, -⟩
        simp only [List.length_nil] at hc
        omega
      · rfl

/-- Witness for the C3 theorem at a concrete input: records at the two
distinct seconds 100 and 101, checked at 101 with `rpm = 2`, then at 200. -/
theorem c3_rate_limit_deny_then_allow_witness :
    (check_rate_limit ([100, 101].foldl zaddTs []) 101 (([100, 101] : List Int).length : Int) 10).1 = false ∧
    (check_rate_limit ([100, 101].foldl zaddTs []) 200 (([100, 101] : List Int).length : Int) 10).1 = true :=
  c3_rate_limit_deny_then_allow [100, 101] 101 200 10 (by decide) (by decide)
    (by decide) (by decide) (by decide)

/-- C3 counterexample against the claim as stated.  First conjunct: two
`record_request` calls in the same second (both inside the trailing 60s of
the check) with `rpm = R = 2` and the configured `default_burst = 10` are
*allowed* (the two calls collapse into one window entry), contradicting
"returns allowed=false".  Remaining conjuncts: 12 records at the distinct
seconds 100–111 are denied when checked at 111 with `rpm = 12` (the
claim's premise holds), yet a check at 161 — more than 60 seconds past the
oldest timestamp 100 — is *still denied* (10 of the 12 seconds remain in
the window and hit `default_burst = 10`), contradicting "check returns
allowed=true again". -/
theorem c3_rate_limit_counterexample :
    (check_rate_limit (recordN [] 100 2) 100 2 default_burst).1 = true ∧
    (check_rate_limit
      ([100, 101, 102, 103, 104, 105, 106, 107, 108, 109, 110, 111].foldl zaddTs [])
      111 12 default_burst).1 = false ∧
    ((161 : Int) - 100 > 60) ∧
    (check_rate_limit
      ([100, 101, 102, 103, 104, 105, 106, 107, 108, 109, 110, 111].foldl zaddTs [])
      161 12 default_burst).1 = false := by
  decide

end RateLimit

namespace Worker

theorem mem_dropWhile_of_not {p : Char → Bool} {c : Char} {l : List Char}
    (hc : c ∈ l) (hp : p c = false) : c ∈ l.dropWhile p := by
  induction l with
  | nil => cases hc
  | cons x xs ih =>
    rw [List.dropWhile_cons]
    by_cases hx : p x
    · rw [if_pos hx]
      rcases List.mem_cons.mp hc with rfl | h
      · rw [hx] at hp; cases hp
      · exact ih h
    · rw [if_neg hx]
      exact hc

theorem mem_pyStrip_of_not_space {c : Char} {l : List Char}
    (hc : c ∈ l) (hp : pyIsSpace c = false) : c ∈ pyStrip l := by
  unfold pyStrip
  rw [List.mem_reverse]
  exact mem_dropWhile_of_not (List.mem_reverse.mpr (mem_dropWhile_of_not hc hp)) hp

theorem getD_mem_slice {text : List Char} {s e i : Nat}
    (hs : s ≤ i) (he : i < e) (hlen : i < text.length) :
    text.getD i ' ' ∈ slice text s e := by
  obtain ⟨c, hc⟩ : ∃ c, text.get? i = some c :=
    ⟨text.get ⟨i, hlen⟩, List.get?_eq_get hlen⟩
  have hcd : text.getD i ' ' = c := by rw [List.getD_eq_get?, hc]; rfl
  rw [hcd]
  apply List.get?_mem (n := i - s)
  show ((text.drop s).take (e - s)).get? (i - s) = some c
  rw [List.get?_take (by omega), List.get?_drop, Nat.add_sub_cancel' hs]
  exact hc

theorem lt_chunkEnd {text : List Char} {cs start : Nat} (hcs : 1 ≤ cs) :
    start < chunkEnd text cs start := by
  unfold chunkEnd
  by_cases h0 : start + cs < text.length
  · rw [if_pos h0]
    by_cases h1 : (start : Int) < pyRfindSpace text start (start + cs)
    · rw [if_pos h1]
      omega
    · rw [if_neg h1]
      omega
  · rw [if_neg h0]
    omega

theorem chunkLoop_covers (text : List Char) (cs ov : Nat) (hcs : 1 ≤ cs)
    (fuel : Nat) : ∀ (start : Nat), text.length - start ≤ fuel →
    ∀ (i : Nat), start ≤ i → i < text.length →
    pyIsSpace (text.getD i ' ') = false →
    ∃ ch ∈ chunkLoop text cs ov start fuel, text.getD i ' ' ∈ ch := by
  induction fuel with
  | zero =>
    intro start hf i hi hilen _
    omega
  | succ fuel ih =>
    intro start hf i hi hilen hns
    have hstart : start < text.length := Nat.lt_of_le_of_lt hi hilen
    have hce : start < chunkEnd text cs start := lt_chunkEnd hcs
    simp only [chunkLoop, if_pos hstart]
    by_cases hcase : i < max (start + 1) (chunkEnd text cs start - ov)
    · -- the character sits inside the current window
      have hice : i < chunkEnd text cs start := by omega
      have hmemsl : text.getD i ' ' ∈ slice text start (chunkEnd text cs start) :=
        getD_mem_slice hi hice hilen
      have hmemstrip := mem_pyStrip_of_not_space hmemsl hns
      rw [if_neg (List.ne_nil_of_mem hmemstrip)]
      exact ⟨_, List.mem_cons_self _ _, hmemstrip⟩
    · -- the character lies beyond the next start; recurse
      push_neg at hcase
      obtain ⟨ch, hch, hmem⟩ :=
        ih (max (start + 1) (chunkEnd text cs start - ov)) (by omega) i hcase hilen hns
      refine ⟨ch, ?_, hmem⟩
      by_cases hc : pyStrip (slice text start (chunkEnd text cs start)) = []
      · rw [if_pos hc]; exact hch
      · rw [if_neg hc]; exact List.mem_cons_of_mem _ hch

/-- C8 (amended): for every 2000-character input, every *non-whitespace*
character of the input appears in at least one chunk returned by
`_chunk_text(text, chunk_size=800, overlap=100)` — the chunk windows cover
the whole text with no gaps, but `.strip()` may drop whitespace characters
sitting at window edges (and all-whitespace windows entirely), so coverage
holds for the non-whitespace characters. -/
theorem c8_chunk_coverage (text : List Char) (hlen : text.length = 2000)
    (i : Nat) (hi : i < text.length)
    (hns : pyIsSpace (text.getD i ' ') = false) :
    ∃ ch ∈ chunk_text text 800 100, text.getD i ' ' ∈ ch := by
  unfold chunk_text
  rw [if_neg (by omega)]
  exact chunkLoop_covers text 800 100 (by norm_num) text.length 0 (by omega) i
    (Nat.zero_le i) hi hns

/-- Witness for C8 at a concrete input: the 2000-character all-`'a'`
string, character 0. -/
theorem c8_chunk_coverage_witness :
    (List.replicate 2000 'a').length = 2000 ∧
    0 < (List.replicate 2000 'a').length ∧
    pyIsSpace ((List.replicate 2000 'a').getD 0 ' ') = false ∧
    ∃ ch ∈ chunk_text (List.replicate 2000 'a') 800 100,
      (List.replicate 2000 'a').getD 0 ' ' ∈ ch := by
  refine ⟨List.length_replicate 2000 'a', ?_, by rfl, ?_⟩
  · rw [List.length_replicate]; norm_num
  · exact c8_chunk_coverage (List.replicate 2000 'a') (List.length_replicate 2000 'a') 0
      (by rw [List.length_replicate]; norm_num) (by rfl)

theorem dropWhile_eq_nil_of_all {p : Char → Bool} {l : List Char}
    (h : ∀ c ∈ l, p c = true) : l.dropWhile p = [] := by
  induction l with
  | nil => rfl
  | cons x xs ih =>
    rw [List.dropWhile_cons, if_pos (h x (List.mem_cons_self x xs))]
    exact ih fun c hc => h c (List.mem_cons_of_mem x hc)

theorem pyStrip_eq_nil_of_all_space {l : List Char}
    (h : ∀ c ∈ l, pyIsSpace c = true) : pyStrip l = [] := by
  unfold pyStrip
  rw [dropWhile_eq_nil_of_all h]
  rfl

theorem dropWhile_eq_self_of_all_not {p : Char → Bool} {l : List Char}
    (h : ∀ c ∈ l, p c = false) : l.dropWhile p = l := by
  cases l with
  | nil => rfl
  | cons x xs =>
    rw [List.dropWhile_cons, if_neg]
    simp [h x (List.mem_cons_self x xs)]

theorem pyStrip_eq_self_of_all_not {l : List Char}
    (h : ∀ c ∈ l, pyIsSpace c = false) : pyStrip l = l := by
  unfold pyStrip
  rw [dropWhile_eq_self_of_all_not h,
      dropWhile_eq_self_of_all_not (fun c hc => h c (List.mem_reverse.mp hc)),
      List.reverse_reverse]

theorem mem_of_mem_slice {text : List Char} {s e : Nat} {c : Char}
    (h : c ∈ slice text s e) : c ∈ text :=
  (List.take_sublist _ _).subset h |> (List.drop_sublist _ _).subset

theorem chunkLoop_all_space {text : List Char} {cs ov : Nat}
    (h : ∀ c ∈ text, pyIsSpace c = true) :
    ∀ (fuel start : Nat), chunkLoop text cs ov start fuel = [] := by
  intro fuel
  induction fuel with
  | zero => intro start; rfl
  | succ fuel ih =>
    intro start
    by_cases hs : start < text.length
    · have hnil : pyStrip (slice text start (chunkEnd text cs start)) = [] :=
        pyStrip_eq_nil_of_all_space fun c hc => h c (mem_of_mem_slice hc)
      simp only [chunkLoop, if_pos hs, hnil]
      rw [if_pos trivial]
      exact ih _
    · simp only [chunkLoop, if_neg hs]

/-- C8 counterexample against the claim as stated: on the 2000-character
all-space input, `_chunk_text` strips every window to the empty string and
returns no chunks at all, so no character of the input appears in any
returned chunk. -/
theorem c8_chunk_coverage_counterexample :
    (List.replicate 2000 ' ').length = 2000 ∧
    chunk_text (List.replicate 2000 ' ') 800 100 = [] ∧
    ¬ ∃ ch ∈ chunk_text (List.replicate 2000 ' ') 800 100,
        (List.replicate 2000 ' ').getD 0 ' ' ∈ ch := by
  have h2 : chunk_text (List.replicate 2000 ' ') 800 100 = [] := by
    unfold chunk_text
    rw [if_neg (by rw [List.length_replicate]; norm_num)]
    exact chunkLoop_all_space
      (fun c hc => by rw [List.eq_of_mem_replicate hc]; rfl) _ _
  refine ⟨List.length_replicate 2000 ' ', h2, ?_⟩
  rw [h2]
  rintro ⟨ch, hch, -⟩
  exact List.not_mem_nil ch hch

theorem findIdx?_eq_none_of_all {p : Char → Bool} {l : List Char}
    (h : ∀ c ∈ l, p c = false) : l.findIdx? p = none := by
  rw [List.findIdx?_eq_none_iff]
  intro x hx
  simp [h x hx]

theorem slice_replicate (n : Nat) (a : Char) (s e : Nat) :
    slice (List.replicate n a) s e = List.replicate (min (e - s) (n - s)) a := by
  unfold slice
  rw [List.drop_replicate, List.take_replicate]

theorem pyRfindSpace_replicate_a (n s e : Nat) :
    pyRfindSpace (List.replicate n 'a') s e = -1 := by
  unfold pyRfindSpace lastSpaceIdx
  rw [slice_replicate, List.reverse_replicate, findIdx?_eq_none_of_all]
  intro c hc
  rw [List.eq_of_mem_replicate hc]
  rfl

theorem pyStrip_slice_replicate_a (n s e : Nat) :
    pyStrip (slice (List.replicate n 'a') s e) = List.replicate (min (e - s) (n - s)) 'a' := by
  rw [slice_replicate]
  exact pyStrip_eq_self_of_all_not fun c hc => by rw [List.eq_of_mem_replicate hc]; rfl

theorem chunkLoop_step {text : List Char} {cs ov start fuel : Nat}
    (hs : start < text.length) (hf : fuel ≠ 0) :
    chunkLoop text cs ov start fuel =
      (if pyStrip (slice text start (chunkEnd text cs start)) = [] then
        chunkLoop text cs ov (max (start + 1) (chunkEnd text cs start - ov)) (fuel - 1)
      else
        pyStrip (slice text start (chunkEnd text cs start)) ::
          chunkLoop text cs ov (max (start + 1) (chunkEnd text cs start - ov)) (fuel - 1)) := by
  cases fuel with
  | zero => exact absurd rfl hf
  | succ f => simp only [chunkLoop, if_pos hs, Nat.succ_sub_one]

theorem chunkLoop_exit {text : List Char} {cs ov start fuel : Nat}
    (hs : ¬ start < text.length) : chunkLoop text cs ov start fuel = [] := by
  cases fuel with
  | zero => rfl
  | succ f => simp only [chunkLoop, if_neg hs]

theorem chunkEnd_repl_0 : chunkEnd (List.replicate 1000 'a') 800 0 = 800 := by
  simp only [chunkEnd, pyRfindSpace_replicate_a, List.length_replicate]
  norm_num

theorem chunkEnd_repl_700 : chunkEnd (List.replicate 1000 'a') 800 700 = 1500 := by
  simp only [chunkEnd, List.length_replicate]
  norm_num

theorem chunk_text_repl_1000 :
    chunk_text (List.replicate 1000 'a') 800 100 =
      [List.replicate 800 'a', List.replicate 300 'a'] := by
  have hne800 : List.replicate 800 'a' ≠ ([] : List Char) := by
    simp only [Ne, List.replicate_eq_nil_iff]
    norm_num
  have hne300 : List.replicate 300 'a' ≠ ([] : List Char) := by
    simp only [Ne, List.replicate_eq_nil_iff]
    norm_num
  unfold chunk_text
  rw [if_neg (by rw [List.length_replicate]; norm_num), List.length_replicate]
  rw [chunkLoop_step (by rw [List.length_replicate]; norm_num) (by norm_num)]
  rw [chunkEnd_repl_0, pyStrip_slice_replicate_a]
  norm_num
  rw [chunkLoop_step (by rw [List.length_replicate]; norm_num) (by norm_num)]
  rw [chunkEnd_repl_700, pyStrip_slice_replicate_a]
  norm_num
  rw [chunkLoop_exit (by rw [List.length_replicate]; norm_num)]

/-- C7: the offsets `_embed_document` persists do not delimit the stored
chunk text.  On the 1000-character all-`'a'` document the second chunk is
`text[700:1000]` (300 characters, produced by the overlap rule), but the
stored row carries `chunk_start = 1 * 800 = 800` and
`chunk_end = min(2 * 800, 1000) = 1000`, which delimit the 200-character
substring `text[800:1000]` — so the stored `chunk_text` is not the
substring of the document text delimited by its own offsets. -/
theorem c7_chunk_offsets_not_substring :
    (embed_document_rows 42 (List.replicate 1000 'a')).length = 2 ∧
    (embed_document_rows 42 (List.replicate 1000 'a')).getD 1 ⟨0, [], 0, 0⟩ =
      { doc_id := 42
        chunk_text := List.replicate 300 'a'
        chunk_start := 800
        chunk_end := 1000 } ∧
    (List.replicate 300 'a' : List Char) ≠
      slice (List.replicate 1000 'a') 800 1000 := by
  have hrows : embed_document_rows 42 (List.replicate 1000 'a') =
      [⟨42, List.replicate 800 'a', 0 * 800, min (1 * 800) 1000⟩,
       ⟨42, List.replicate 300 'a', 1 * 800, min (2 * 800) 1000⟩] := by
    unfold embed_document_rows
    rw [chunk_text_repl_1000, List.length_replicate]
    rfl
  refine ⟨by rw [hrows]; rfl, ?_, ?_⟩
  · rw [hrows]
    show (⟨42, List.replicate 300 'a', 1 * 800, min (2 * 800) 1000⟩ : EmbeddingRow) = _
    norm_num
  · rw [slice_replicate]
    intro h
    have hlen := congrArg List.length h
    rw [List.length_replicate, List.length_replicate] at hlen
    norm_num at hlen

end Worker


namespace SearchSvc

theorem lookupA_mem {α : Type} {m : List (CacheKey × α)} {key : CacheKey} {v : α}
    (h : lookupA m key = some v) : (key, v) ∈ m := by
  induction m with
  | nil => cases h
  | cons p rest ih =>
    obtain ⟨k, v'⟩ := p
    simp only [lookupA] at h
    by_cases hk : k = key
    · rw [if_pos hk] at h
      injection h with h
      subst hk
      subst h
      exact List.mem_cons_self _ _
    · rw [if_neg hk] at h
      exact List.mem_cons_of_mem _ (ih h)

theorem text_search_org_of_ne_nil {docs : List Doc} {query : String} {k : Nat}
    {orgId : Option Nat} (h : text_search docs query k orgId ≠ []) :
    ∃ A, orgId = some A ∧ A ≠ 0 := by
  by_cases hfo : pyFalsyOrg orgId
  · exfalso
    apply h
    unfold text_search
    rw [if_pos hfo]
  · cases orgId with
    | none => exact absurd rfl hfo
    | some n =>
      refine ⟨n, rfl, ?_⟩
      intro h0
      exact hfo (by simp [pyFalsyOrg, h0])

/-- The state invariant maintained by document creation and search: every
search-cache entry is keyed by a non-falsy organization
(`set_search_cache` is only reached when `_text_search` returned a
non-empty list, which requires a truthy `org_id`). -/
def Inv (st : SysState) : Prop :=
  ∀ p ∈ st.searchCache, ∃ A, p.1.1 = some A ∧ A ≠ 0

theorem inv_empty : Inv emptyState := by
  intro p hp
  simp [emptyState] at hp

theorem inv_create {st : SysState} (h : Inv st) (orgId : Nat)
    (title source text metadata : String) (createdAt : Nat) :
    Inv (createDoc st orgId title source text metadata createdAt) := by
  intro p hp
  exact h p hp

theorem inv_search (hash : String → String) {st : SysState} (h : Inv st)
    (query : String) (k : Nat) (orgId : Option Nat) (qEmb : List ℚ) :
    Inv (search hash st query k orgId qEmb).2 := by
  have hfresh : Inv (searchFresh hash st query k orgId qEmb).2 := by
    unfold searchFresh
    by_cases hq : qEmb.isEmpty
    · rw [if_pos hq]
      exact h
    · rw [if_neg hq]
      by_cases hsim : (text_search st.docs query (k * 2) orgId).isEmpty
      · rw [if_pos hsim]
        exact h
      · rw [if_neg hsim]
        intro p hp
        rcases List.mem_cons.mp hp with rfl | hp
        · -- the freshly written entry
          have hne : text_search st.docs query (k * 2) orgId ≠ [] := by
            intro hnil
            rw [hnil] at hsim
            exact hsim rfl
          obtain ⟨A, hA, hA0⟩ := text_search_org_of_ne_nil hne
          refine ⟨A, ?_, hA0⟩
          simpa using hA
        · exact h p hp
  unfold search
  cases hlk : get_search_cache st hash query orgId with
  | none => exact hfresh
  | some cached =>
    by_cases hemp : cached.isEmpty
    · simpa [hemp] using hfresh
    · simpa [hemp] using h

theorem inv_reach (hash : String → String) {st : SysState} (h : Reach hash st) :
    Inv st := by
  induction h with
  | start => exact inv_empty
  | createStep orgId title source text metadata createdAt _ ih =>
    exact inv_create ih orgId title source text metadata createdAt
  | searchStep query k orgId qEmb _ ih =>
    exact inv_search hash ih query k orgId qEmb

end SearchSvc

namespace SearchSvc

/-- C1: tenant isolation of search is the program's own stated intent —
the comment above the org filter reads "CRITICAL: Always filter by
organization ID for security" (`search.py:141`) and
`test_security.py::test_search_isolation` asserts that no document id of
one tenant appears in another tenant's search results — but the code
violates it: `_text_search` splices the user-derived search terms into
the SQL by f-string (`search.py:162`), so the single-token query
`sq + ")or(1=1))or((" + sq + sq + "=" + sq` (where `sq` is the single
quote; whitespace-free, 18 characters, not a stop word — it survives the
term filter verbatim) produces the WHERE clause

  `1=1 AND d.org_id = :org_id AND ((d.title ILIKE` `...))or(...)or(...)`

whose second top-level OR-disjunct contains the tautology `(1=1)` — `OR`
binds looser than `AND` — so every document of every organization
matches and the `d.org_id = :org_id` filter is bypassed.  Evaluated at
the failing input: a store holding exactly one document, owned by
organization 2 (first conjunct), searched under organization 1 with that
query, returns that document (second conjunct) and caches its id under
the search-cache key of organization 1 (third conjunct). -/
theorem c1_sql_injection_cross_tenant :
    ((createDoc emptyState 2 "Tenant2 secret" "internal"
        "top secret notes" "{}" 0).docs.map (fun d => (d.id, d.org_id)) = [(1, 2)]) ∧
    ((search (fun s => s)
        (createDoc emptyState 2 "Tenant2 secret" "internal" "top secret notes" "{}" 0)
        (String.mk ([sqlQuote] ++ ")or(1=1))or((".toList ++ [sqlQuote, sqlQuote] ++
          "=".toList ++ [sqlQuote]))
        5 (some 1) [1]).1.map (fun r => r.doc_id) = [1]) ∧
    (get_search_cache
        (search (fun s => s)
          (createDoc emptyState 2 "Tenant2 secret" "internal" "top secret notes" "{}" 0)
          (String.mk ([sqlQuote] ++ ")or(1=1))or((".toList ++ [sqlQuote, sqlQuote] ++
            "=".toList ++ [sqlQuote]))
          5 (some 1) [1]).2
        (fun s => s)
        (String.mk ([sqlQuote] ++ ")or(1=1))or((".toList ++ [sqlQuote, sqlQuote] ++
          "=".toList ++ [sqlQuote]))
        (some 1) = some [1]) := by
  refine ⟨by decide, by decide, by decide⟩

/-- C2 (amended): `search` with the tenant id absent returns the empty
result list and leaves the store untouched — no exception is raised, no
tenant is defaulted, and no document is ever returned (the warning print
and `return []` in `_text_search` are the entire handling); the hard-error
guard lives one layer up in the orchestrator, whose step-4 check turns a
missing `org_id` into a terminal `error` event before `search` is
reached. -/
theorem c2_missing_tenant_yields_empty (hash : String → String) {st : SysState}
    (hst : Reach hash st) (q : String) (k : Nat) (qEmb : List ℚ) :
    search hash st q k none qEmb = ([], st) ∧
    (∀ (c : Orchestrator.Collab) (acc : List Orchestrator.Event), c.orgId = none →
      Orchestrator.stageSearch c acc =
        acc ++ [{ type := Orchestrator.EvType.error,
                  data := "Organization ID is required for security" }]) := by
  have h3 := inv_reach hash hst
  constructor
  · have hnone : get_search_cache st hash q none = none := by
      cases hlk : get_search_cache st hash q none with
      | none => rfl
      | some cached =>
        obtain ⟨A, hA, -⟩ := h3 _ (lookupA_mem hlk)
        exact absurd hA (by simp)
    have htxt : text_search st.docs q (k * 2) none = [] := by
      unfold text_search
      rw [if_pos (show pyFalsyOrg none = true from rfl)]
    unfold search
    rw [hnone]
    unfold searchFresh
    by_cases hq : qEmb.isEmpty
    · rw [if_pos hq]
    · rw [if_neg hq, htxt]
      rfl
  · intro c acc hc
    unfold Orchestrator.stageSearch
    rw [hc]
    rfl

/-- Witness for C2 at a concrete input: a reachable store holding one
document of organization 7, queried without a tenant id. -/
theorem c2_missing_tenant_yields_empty_witness :
    (search (fun s => s)
        (createDoc emptyState 7 "Healthcare Policy" "internal" "HIPAA rules" "{}" 5)
        "HIPAA" 5 none [1] =
      ([], createDoc emptyState 7 "Healthcare Policy" "internal" "HIPAA rules" "{}" 5)) ∧
    (∀ (c : Orchestrator.Collab) (acc : List Orchestrator.Event), c.orgId = none →
      Orchestrator.stageSearch c acc =
        acc ++ [{ type := Orchestrator.EvType.error,
                  data := "Organization ID is required for security" }]) :=
  c2_missing_tenant_yields_empty (fun s => s)
    (Reach.createStep 7 "Healthcare Policy" "internal" "HIPAA rules" "{}" 5 Reach.start)
    "HIPAA" 5 [1]

/-- C2 counterexample against the claim as stated: invoking `search` with
`org_id = None` on a store holding a matching document of organization 7
completes normally with the empty result list — it is exactly the
"silently treated as an empty result set" outcome the claim rules out,
and no `MissingTenantError`-like exception exists on this path (the model
of `search` is total).  The same query with `org_id = 7` returns results,
so the emptiness is the missing-tenant handling, not a failed match. -/
theorem c2_missing_tenant_counterexample :
    (search (fun s => s)
        (createDoc emptyState 7 "Healthcare Policy" "internal" "HIPAA compliance rules" "{}" 5)
        "HIPAA" 5 none [1]).1 = [] ∧
    (search (fun s => s)
        (createDoc emptyState 7 "Healthcare Policy" "internal" "HIPAA compliance rules" "{}" 5)
        "HIPAA" 5 (some 7) [1]).1 ≠ [] := by
  constructor
  · rfl
  · decide

/-- C10: every search that hits the search-result cache returns results
whose score is the hardcoded `1.0` of `_get_documents_by_ids` (picked up
by `_format_search_results` as `result.get("similarity", ...)`),
regardless of the similarity scores computed when the id list was first
cached. -/
theorem c10_cache_hit_scores_one (hash : String → String) (st : SysState)
    (q : String) (k : Nat) (orgId : Option Nat) (qEmb : List ℚ) (ids : List Nat)
    (hhit : get_search_cache st hash q orgId = some ids) (hne : ids ≠ []) :
    ∀ r ∈ (search hash st q k orgId qEmb).1, r.score = 1 := by
  intro r hr
  unfold search at hr
  split at hr
  next cached hlk =>
    rw [hhit] at hlk
    injection hlk with hlk
    subst hlk
    split at hr
    next hemp => exact absurd (List.isEmpty_iff.mp hemp) hne
    next =>
      obtain ⟨rd, hrd, rfl⟩ := List.mem_map.mp hr
      obtain ⟨d0, hd0, rfl⟩ := List.mem_map.mp hrd
      rfl
  next hlk =>
    rw [hhit] at hlk
    cases hlk

/-- Witness for C10 at a concrete input: a store whose search cache maps
`(org 7, "q")` to the id list `[1]` with a matching document present. -/
theorem c10_cache_hit_scores_one_witness :
    get_search_cache
        ⟨[⟨1, 7, "t", "s", "x", "{}", 0⟩], 2, [((some 7, "q"), [1])]⟩
        (fun s => s) "q" (some 7) = some [1] ∧
    ([1] : List Nat) ≠ [] ∧
    ∀ r ∈ (search (fun s => s)
        ⟨[⟨1, 7, "t", "s", "x", "{}", 0⟩], 2, [((some 7, "q"), [1])]⟩
        "q" 5 (some 7) [1]).1, r.score = 1 :=
  ⟨rfl, by decide,
    c10_cache_hit_scores_one (fun s => s)
      ⟨[⟨1, 7, "t", "s", "x", "{}", 0⟩], 2, [((some 7, "q"), [1])]⟩
      "q" 5 (some 7) [1] [1] rfl (by decide)⟩

end SearchSvc

namespace Orchestrator

theorem endsTerminal_concat {l : List Event} {e : Event}
    (h : e.type = EvType.final ∨ e.type = EvType.chat_response ∨ e.type = EvType.error) :
    endsTerminal (l ++ [e]) :=
  ⟨e, List.getLast?_concat _, h⟩

theorem stageGenerate_terminal (c : Collab) (acc : List Event) :
    endsTerminal (stageGenerate c acc) := by
  simp only [stageGenerate]
  by_cases hcond : (String.join (stream_chat_tokens c) ≠ "" ∧
      ¬(String.join (stream_chat_tokens c)).startsWith "Error:" = true)
  · rw [if_pos hcond]
    cases hset : c.respCacheSet with
    | error e => exact endsTerminal_concat (Or.inr (Or.inr rfl))
    | ok u => exact endsTerminal_concat (Or.inl rfl)
  · rw [if_neg hcond]
    exact endsTerminal_concat (Or.inl rfl)

theorem stageSearch_terminal (c : Collab) (acc : List Event) :
    endsTerminal (stageSearch c acc) := by
  unfold stageSearch
  split
  · exact endsTerminal_concat (Or.inr (Or.inr rfl))
  · split
    · exact endsTerminal_concat (Or.inr (Or.inr rfl))
    · exact stageGenerate_terminal _ _
  
theorem stageCacheCheck_terminal (c : Collab) (acc : List Event) :
    endsTerminal (stageCacheCheck c acc) := by
  unfold stageCacheCheck
  split
  · exact endsTerminal_concat (Or.inr (Or.inr rfl))
  · exact endsTerminal_concat (Or.inr (Or.inl rfl))
  · exact stageSearch_terminal _ _

theorem stageRate_terminal (c : Collab) (acc : List Event) :
    endsTerminal (stageRate c acc) := by
  unfold stageRate
  split
  · split
    · exact endsTerminal_concat (Or.inr (Or.inr rfl))
    · split
      · exact endsTerminal_concat (Or.inr (Or.inr rfl))
      · split
        · exact endsTerminal_concat (Or.inr (Or.inr rfl))
        · exact stageCacheCheck_terminal _ _
  · exact stageCacheCheck_terminal _ _

/-- C4: for every input and every combination of collaborator outcomes —
transcription exception or error field, rate-limit exception or denial,
cache exception/hit/miss, search exception or empty result, generation
failure on primary and/or fallback, cache-write exception — the event
stream of `handle_voice_query` is non-empty and its last event is of type
`final`, `chat_response`, or `error`; every modelled exception is caught
by the top-level handler and converted into the terminal `error` event
rather than escaping. -/
theorem c4_stream_always_terminates (c : Collab) :
    endsTerminal (handle_voice_query c) := by
  unfold handle_voice_query
  split
  · exact endsTerminal_concat (Or.inr (Or.inr rfl))
  · split
    · exact endsTerminal_concat (Or.inr (Or.inr rfl))
    · exact stageRate_terminal _ _

end Orchestrator

namespace MMR

theorem le_listMax1 {x a : ℝ} {xs : List ℝ} (h : a ∈ x :: xs) :
    a ≤ listMax1 x xs := by
  induction xs generalizing x with
  | nil =>
    rcases List.mem_cons.mp h with rfl | h2
    · exact le_refl _
    · cases h2
  | cons y ys ih =>
    rcases List.mem_cons.mp h with rfl | h2
    · exact le_max_left _ _
    · exact le_trans (ih h2) (le_max_right _ _)

theorem argmaxIdx_lt (x : ℝ) (xs : List ℝ) : argmaxIdx x xs < (x :: xs).length := by
  induction xs generalizing x with
  | nil => simp [argmaxIdx]
  | cons y ys ih =>
    by_cases h : listMax1 y ys ≤ x
    · simp [argmaxIdx, h]
    · have := ih y
      simp only [argmaxIdx, if_neg h, List.length_cons] at this ⊢
      omega

theorem getD_argmaxIdx (x : ℝ) (xs : List ℝ) :
    (x :: xs).getD (argmaxIdx x xs) 0 = listMax1 x xs := by
  induction xs generalizing x with
  | nil => simp [argmaxIdx, listMax1]
  | cons y ys ih =>
    by_cases h : listMax1 y ys ≤ x
    · simp only [argmaxIdx, if_pos h, List.getD_cons_zero, listMax1]
      exact (max_eq_left h).symm
    · simp only [argmaxIdx, if_neg h, List.getD_cons_succ, listMax1]
      rw [ih y]
      exact (max_eq_right (le_of_lt (lt_of_not_le h))).symm

theorem mmrLoop_prefix (lam : ℝ) (sims : List ℝ) (vecs : List (List ℝ)) :
    ∀ (fuel : ℕ) (selected remaining : List ℕ),
    ∃ tail, mmrLoop lam sims vecs selected remaining fuel = selected ++ tail := by
  intro fuel
  induction fuel with
  | zero => intro sel rem; exact ⟨[], by simp [mmrLoop]⟩
  | succ fuel ih =>
    intro sel rem
    cases rem with
    | nil => exact ⟨[], by simp [mmrLoop]⟩
    | cons r0 rrest =>
      simp only [mmrLoop]
      obtain ⟨t2, ht2⟩ := ih _ _
      exact ⟨_, by rw [ht2, List.append_assoc]⟩

theorem parsedVectors_eq_map {cands : List Candidate}
    (h : ∀ c ∈ cands, c.vector.isSome) :
    parsedVectors cands = cands.map (fun c => c.vector.getD []) := by
  induction cands with
  | nil => rfl
  | cons c cs ih =>
    obtain ⟨v, hv⟩ := Option.isSome_iff_exists.mp (h c (List.mem_cons_self _ _))
    have htl := ih fun d hd => h d (List.mem_cons_of_mem c hd)
    simp only [parsedVectors, List.filterMap_cons, hv, List.map_cons] at htl ⊢
    rw [htl]
    rfl

/-- C5: for every λ, every query vector, every `k` and every non-empty
candidate list all of whose `"vector"` entries parse, the first element of
the list `_mmr_rerank` returns is a candidate of maximal cosine similarity
to the query vector (with `np.argmax` tie-breaking, the first such
candidate), carrying that similarity as its `mmr_score`. -/
theorem c5_mmr_first_is_most_similar (lam : ℝ) (qv : List ℝ)
    (cands : List Candidate) (k : ℕ) (hne : cands ≠ [])
    (hall : ∀ c ∈ cands, c.vector.isSome) :
    ∃ c0 s0 rest, mmr_rerank lam qv cands k = (c0, s0) :: rest ∧ c0 ∈ cands ∧
      s0 = cossim qv (c0.vector.getD []) ∧
      ∀ c ∈ cands, cossim qv (c.vector.getD []) ≤ cossim qv (c0.vector.getD []) := by
  obtain ⟨c1, cs, rfl⟩ := List.exists_cons_of_ne_nil hne
  simp only [mmr_rerank, List.isEmpty_cons, Bool.false_eq_true, if_false,
    parsedVectors_eq_map hall, List.map_cons, List.map_map]
  have h1 : cossim qv (c1.vector.getD []) ::
      List.map ((fun v => cossim qv v) ∘ fun c => c.vector.getD []) cs =
      (c1 :: cs).map (fun c => cossim qv (c.vector.getD [])) := by
    simp [Function.comp]
  generalize hSS : List.map ((fun v => cossim qv v) ∘ fun c => c.vector.getD []) cs = SS at h1
  generalize hS : cossim qv (c1.vector.getD []) = S at h1
  have hlSS : SS.length = cs.length := by
    rw [← hSS, List.length_map]
  obtain ⟨tail, htail⟩ := mmrLoop_prefix lam (S :: SS)
    (c1.vector.getD [] :: List.map (fun c => c.vector.getD []) cs)
    ((k - 1) ⊓ (((List.range (c1 :: cs).length).erase (argmaxIdx S SS)).length))
    [argmaxIdx S SS] ((List.range (c1 :: cs).length).erase (argmaxIdx S SS))
  rw [htail, List.singleton_append, List.map_cons]
  have hflt : argmaxIdx S SS < (c1 :: cs).length := by
    have := argmaxIdx_lt S SS
    simp only [List.length_cons, hlSS] at this ⊢
    omega
  have hsget : (S :: SS).getD (argmaxIdx S SS) 0 =
      cossim qv (((c1 :: cs).getD (argmaxIdx S SS) ⟨none, ""⟩).vector.getD []) := by
    have h2 := congrArg (fun l => l.getD (argmaxIdx S SS) (0 : ℝ)) h1
    simp only at h2
    rw [h2, List.getD_eq_getElem _ _ (by rw [List.length_map]; exact hflt),
        List.getD_eq_getElem _ _ hflt, List.getElem_map]
  refine ⟨(c1 :: cs).getD (argmaxIdx S SS) ⟨none, ""⟩, (S :: SS).getD (argmaxIdx S SS) 0,
    _, rfl, ?_, ?_, ?_⟩
  · rw [List.getD_eq_getElem _ _ hflt]
    exact List.getElem_mem hflt
  · exact hsget
  · intro c hc
    have hmem : cossim qv (c.vector.getD []) ∈ S :: SS := by
      rw [h1]
      exact List.mem_map_of_mem _ hc
    calc cossim qv (c.vector.getD []) ≤ listMax1 S SS := le_listMax1 hmem
      _ = (S :: SS).getD (argmaxIdx S SS) 0 := (getD_argmaxIdx S SS).symm
      _ = cossim qv (((c1 :: cs).getD (argmaxIdx S SS) ⟨none, ""⟩).vector.getD []) := hsget

/-- Witness for C5 at a concrete input: λ = 0.7, query `[1, 0]`,
candidates with vectors `[1, 0]` and `[0, 1]`, `k = 2`. -/
theorem c5_mmr_first_is_most_similar_witness :
    ([⟨some [(1 : ℝ), 0], "a"⟩, ⟨some [0, 1], "b"⟩] : List Candidate) ≠ [] ∧
    (∀ c ∈ ([⟨some [(1 : ℝ), 0], "a"⟩, ⟨some [0, 1], "b"⟩] : List Candidate),
      c.vector.isSome) ∧
    ∃ c0 s0 rest,
      mmr_rerank 0.7 [(1 : ℝ), 0] [⟨some [(1 : ℝ), 0], "a"⟩, ⟨some [0, 1], "b"⟩] 2 =
        (c0, s0) :: rest ∧
      c0 ∈ ([⟨some [(1 : ℝ), 0], "a"⟩, ⟨some [0, 1], "b"⟩] : List Candidate) ∧
      s0 = cossim [(1 : ℝ), 0] (c0.vector.getD []) ∧
      ∀ c ∈ ([⟨some [(1 : ℝ), 0], "a"⟩, ⟨some [0, 1], "b"⟩] : List Candidate),
        cossim [(1 : ℝ), 0] (c.vector.getD []) ≤ cossim [(1 : ℝ), 0] (c0.vector.getD []) := by
  refine ⟨by simp, ?_, ?_⟩
  · intro c hc
    rcases List.mem_cons.mp hc with rfl | hc2
    · rfl
    · rcases List.mem_cons.mp hc2 with rfl | hc3
      · rfl
      · cases hc3
  · apply c5_mmr_first_is_most_similar
    · simp
    · intro c hc
      rcases List.mem_cons.mp hc with rfl | hc2
      · rfl
      · rcases List.mem_cons.mp hc2 with rfl | hc3
        · rfl
        · cases hc3

theorem dot_comm (x y : List ℝ) : dot x y = dot y x := by
  induction x generalizing y with
  | nil => cases y <;> rfl
  | cons a as ih =>
    cases y with
    | nil => rfl
    | cons b bs => simp [dot, ih, mul_comm]

theorem cossim_comm (x y : List ℝ) : cossim x y = cossim y x := by
  unfold cossim
  rw [dot_comm x y, mul_comm]

theorem cossim_eq_dot {x y : List ℝ} (hx : dot x x = 1) (hy : dot y y = 1) :
    cossim x y = dot x y := by
  unfold cossim norm2
  rw [hx, hy, Real.sqrt_one]
  norm_num

theorem mmrLoop_two (lam : ℝ) (sims : List ℝ) (vecs : List (List ℝ)) (F a b : ℕ) :
    mmrLoop lam sims vecs [F] [a, b] 1 =
      [F, if lam * sims.getD b 0 + (1 - lam) * (1 - cossim (vecs.getD b []) (vecs.getD F [])) ≤
            lam * sims.getD a 0 + (1 - lam) * (1 - cossim (vecs.getD a []) (vecs.getD F []))
          then a else b] := by
  simp only [mmrLoop, List.map_cons, List.map_nil, pickBest, listMax1, List.headI, List.tail,
    apply_ite (f := Prod.fst)]
  rfl

theorem mmr_rerank_three_eval (lam : ℝ) (qv v0 v1 v2 : List ℝ) (x0 x1 x2 : Candidate)
    (h0 : x0.vector = some v0) (h1 : x1.vector = some v1) (h2 : x2.vector = some v2) :
    mmr_rerank lam qv [x0, x1, x2] 2 =
      (mmrLoop lam [cossim qv v0, cossim qv v1, cossim qv v2] [v0, v1, v2]
        [argmaxIdx (cossim qv v0) [cossim qv v1, cossim qv v2]]
        ((List.range 3).erase (argmaxIdx (cossim qv v0) [cossim qv v1, cossim qv v2]))
        (min 1 ((List.range 3).erase
          (argmaxIdx (cossim qv v0) [cossim qv v1, cossim qv v2])).length)).map
        (fun idx => (([x0, x1, x2] : List Candidate).getD idx ⟨none, ""⟩,
          ([cossim qv v0, cossim qv v1, cossim qv v2] : List ℝ).getD idx 0)) := by
  simp only [mmr_rerank, parsedVectors, List.filterMap_cons, h0, h1, h2,
    List.filterMap_nil, List.isEmpty_cons, Bool.false_eq_true, if_false,
    List.map_cons, List.map_nil, List.length_cons, List.length_nil]

theorem argmaxIdx_three (s0 s1 s2 : ℝ) :
    argmaxIdx s0 [s1, s2] = if max s1 s2 ≤ s0 then 0 else if s2 ≤ s1 then 1 else 2 := by
  simp only [argmaxIdx, listMax1]
  by_cases h : max s1 s2 ≤ s0
  · rw [if_pos h, if_pos h]
  · rw [if_neg h, if_neg h]
    by_cases h2 : s2 ≤ s1
    · rw [if_pos h2, if_pos h2]
    · rw [if_neg h2, if_neg h2]

/-- C6 (amended): with λ = 0.5 and k = 2, for every candidate set of two
near-duplicates (mutual cosine similarity above 0.99) and one dissimilar
candidate (cosine at most 0.99 to each duplicate) *that is at least as
relevant to the query as each duplicate*, the output of `_mmr_rerank`
includes the dissimilar candidate rather than both duplicates.  (The
relevance proviso is what the counterexample forces: a sufficiently less
relevant dissimilar candidate loses the λ-weighted trade-off.) -/
theorem c6_mmr_diversity (qv vA vB vD : List ℝ) (tA tB tD : String)
    (l : List Candidate)
    (hdup : 99/100 < cossim vA vB)
    (hdissA : cossim vD vA ≤ 99/100)
    (hdissB : cossim vD vB ≤ 99/100)
    (hrelA : cossim qv vA ≤ cossim qv vD)
    (hrelB : cossim qv vB ≤ cossim qv vD)
    (hl : l = [⟨some vD, tD⟩, ⟨some vA, tA⟩, ⟨some vB, tB⟩] ∨
          l = [⟨some vA, tA⟩, ⟨some vD, tD⟩, ⟨some vB, tB⟩] ∨
          l = [⟨some vA, tA⟩, ⟨some vB, tB⟩, ⟨some vD, tD⟩]) :
    (⟨some vD, tD⟩ : Candidate) ∈ (mmr_rerank (1/2) qv l 2).map Prod.fst := by
  have hBA : cossim vB vA = cossim vA vB := cossim_comm vB vA
  rcases hl with rfl | rfl | rfl
  · -- the dissimilar candidate is listed first and is the argmax
    rw [mmr_rerank_three_eval (1/2) qv vD vA vB _ _ _ rfl rfl rfl]
    rw [argmaxIdx_three, if_pos (max_le hrelA hrelB)]
    rw [show (List.range 3).erase 0 = [1, 2] from rfl,
        show min 1 ([1, 2] : List ℕ).length = 1 from rfl, mmrLoop_two]
    simp only [List.getD_cons_zero, List.getD_cons_succ, List.map_cons, List.map_nil]
    split <;> exact List.mem_cons_self _ _
  · -- the dissimilar candidate is listed second
    rw [mmr_rerank_three_eval (1/2) qv vA vD vB _ _ _ rfl rfl rfl]
    rw [argmaxIdx_three]
    by_cases hA : max (cossim qv vD) (cossim qv vB) ≤ cossim qv vA
    · rw [if_pos hA]
      rw [show (List.range 3).erase 0 = [1, 2] from rfl,
          show min 1 ([1, 2] : List ℕ).length = 1 from rfl, mmrLoop_two]
      simp only [List.getD_cons_zero, List.getD_cons_succ]
      have hle : (1:ℝ)/2 * cossim qv vB + (1 - 1/2) * (1 - cossim vB vA) ≤
          1/2 * cossim qv vD + (1 - 1/2) * (1 - cossim vD vA) := by
        rw [hBA]
        nlinarith [hdup, hdissA, hrelB]
      rw [if_pos hle]
      simp only [List.map_cons, List.map_nil, List.getD_cons_zero, List.getD_cons_succ]
      exact List.mem_cons_of_mem _ (List.mem_cons_self _ _)
    · rw [if_neg hA, if_pos hrelB]
      rw [show (List.range 3).erase 1 = [0, 2] from rfl,
          show min 1 ([0, 2] : List ℕ).length = 1 from rfl, mmrLoop_two]
      simp only [List.map_cons, List.map_nil, List.getD_cons_zero, List.getD_cons_succ]
      exact List.mem_cons_self _ _
  · -- the dissimilar candidate is listed third
    rw [mmr_rerank_three_eval (1/2) qv vA vB vD _ _ _ rfl rfl rfl]
    rw [argmaxIdx_three]
    by_cases hA : max (cossim qv vB) (cossim qv vD) ≤ cossim qv vA
    · rw [if_pos hA]
      rw [show (List.range 3).erase 0 = [1, 2] from rfl,
          show min 1 ([1, 2] : List ℕ).length = 1 from rfl, mmrLoop_two]
      simp only [List.getD_cons_zero, List.getD_cons_succ]
      have hlt : (1:ℝ)/2 * cossim qv vB + (1 - 1/2) * (1 - cossim vB vA) <
          1/2 * cossim qv vD + (1 - 1/2) * (1 - cossim vD vA) := by
        rw [hBA]
        nlinarith [hdup, hdissA, hrelB]
      rw [if_neg (not_le.mpr hlt)]
      simp only [List.map_cons, List.map_nil, List.getD_cons_zero, List.getD_cons_succ]
      exact List.mem_cons_of_mem _ (List.mem_cons_self _ _)
    · rw [if_neg hA]
      by_cases hB : cossim qv vD ≤ cossim qv vB
      · rw [if_pos hB]
        rw [show (List.range 3).erase 1 = [0, 2] from rfl,
            show min 1 ([0, 2] : List ℕ).length = 1 from rfl, mmrLoop_two]
        simp only [List.getD_cons_zero, List.getD_cons_succ]
        have hlt : (1:ℝ)/2 * cossim qv vA + (1 - 1/2) * (1 - cossim vA vB) <
            1/2 * cossim qv vD + (1 - 1/2) * (1 - cossim vD vB) := by
          nlinarith [hdup, hdissB, hrelA]
        rw [if_neg (not_le.mpr hlt)]
        simp only [List.map_cons, List.map_nil, List.getD_cons_zero, List.getD_cons_succ]
        exact List.mem_cons_of_mem _ (List.mem_cons_self _ _)
      · rw [if_neg hB]
        rw [show (List.range 3).erase 2 = [0, 1] from rfl,
            show min 1 ([0, 1] : List ℕ).length = 1 from rfl, mmrLoop_two]
        simp only [List.map_cons, List.map_nil, List.getD_cons_zero, List.getD_cons_succ]
        exact List.mem_cons_self _ _

/-- Witness for C6 at a concrete input: query `[0, 1]`, near-duplicates
`[1599/1601, ±80/1601]` (unit vectors, mutual cosine ≈ 0.995), dissimilar
candidate `[0, 1]` aligned with the query, listed third. -/
theorem c6_mmr_diversity_witness :
    (99/100 : ℝ) < cossim [(1599:ℝ)/1601, 80/1601] [(1599:ℝ)/1601, -80/1601] ∧
    cossim [(0:ℝ), 1] [(1599:ℝ)/1601, 80/1601] ≤ 99/100 ∧
    cossim [(0:ℝ), 1] [(1599:ℝ)/1601, -80/1601] ≤ 99/100 ∧
    cossim [(0:ℝ), 1] [(1599:ℝ)/1601, 80/1601] ≤ cossim [(0:ℝ), 1] [(0:ℝ), 1] ∧
    cossim [(0:ℝ), 1] [(1599:ℝ)/1601, -80/1601] ≤ cossim [(0:ℝ), 1] [(0:ℝ), 1] ∧
    (⟨some [(0:ℝ), 1], "diss"⟩ : Candidate) ∈
      (mmr_rerank (1/2) [(0:ℝ), 1]
        [⟨some [(1599:ℝ)/1601, 80/1601], "dup1"⟩,
         ⟨some [(1599:ℝ)/1601, -80/1601], "dup2"⟩,
         ⟨some [(0:ℝ), 1], "diss"⟩] 2).map Prod.fst := by
  have hq : dot [(0:ℝ), 1] [(0:ℝ), 1] = 1 := by norm_num [dot]
  have ha : dot [(1599:ℝ)/1601, 80/1601] [(1599:ℝ)/1601, 80/1601] = 1 := by norm_num [dot]
  have hb : dot [(1599:ℝ)/1601, -80/1601] [(1599:ℝ)/1601, -80/1601] = 1 := by norm_num [dot]
  have eAB : cossim [(1599:ℝ)/1601, 80/1601] [(1599:ℝ)/1601, -80/1601] = 2550401/2563201 := by
    rw [cossim_eq_dot ha hb]
    norm_num [dot]
  have eDA : cossim [(0:ℝ), 1] [(1599:ℝ)/1601, 80/1601] = 80/1601 := by
    rw [cossim_eq_dot hq ha]
    norm_num [dot]
  have eDB : cossim [(0:ℝ), 1] [(1599:ℝ)/1601, -80/1601] = -(80/1601) := by
    rw [cossim_eq_dot hq hb]
    norm_num [dot]
  have eDD : cossim [(0:ℝ), 1] [(0:ℝ), 1] = 1 := by
    rw [cossim_eq_dot hq hq]
    norm_num [dot]
  refine ⟨by rw [eAB]; norm_num, by rw [eDA]; norm_num, by rw [eDB]; norm_num,
    by rw [eDA, eDD]; norm_num, by rw [eDB, eDD]; norm_num, ?_⟩
  exact c6_mmr_diversity [(0:ℝ), 1] [(1599:ℝ)/1601, 80/1601] [(1599:ℝ)/1601, -80/1601]
    [(0:ℝ), 1] "dup1" "dup2" "diss" _
    (by rw [eAB]; norm_num) (by rw [eDA]; norm_num) (by rw [eDB]; norm_num)
    (by rw [eDA, eDD]; norm_num) (by rw [eDB, eDD]; norm_num)
    (Or.inr (Or.inr rfl))

/-- C6 counterexample against the claim as stated: with λ = 0.5 and k = 2,
query `[1, 0]`, the near-duplicate unit vectors `[1599/1601, ±80/1601]`
(mutual cosine 2550401/2563201 > 0.99) and the dissimilar candidate
`[0, 1]` (cosine ±80/1601 to the duplicates), `_mmr_rerank` returns *both
duplicates* and excludes the dissimilar candidate: the duplicates' high
relevance (≈ 0.999) outweighs the λ = 0.5 diversity term against the
dissimilar candidate's relevance 0. -/
theorem c6_mmr_diversity_counterexample :
    (99/100 : ℝ) < cossim [(1599:ℝ)/1601, 80/1601] [(1599:ℝ)/1601, -80/1601] ∧
    cossim [(0:ℝ), 1] [(1599:ℝ)/1601, 80/1601] ≤ 99/100 ∧
    cossim [(0:ℝ), 1] [(1599:ℝ)/1601, -80/1601] ≤ 99/100 ∧
    (mmr_rerank (1/2) [(1:ℝ), 0]
      [⟨some [(1599:ℝ)/1601, 80/1601], "dup1"⟩,
       ⟨some [(1599:ℝ)/1601, -80/1601], "dup2"⟩,
       ⟨some [(0:ℝ), 1], "diss"⟩] 2).map Prod.fst =
      [⟨some [(1599:ℝ)/1601, 80/1601], "dup1"⟩,
       ⟨some [(1599:ℝ)/1601, -80/1601], "dup2"⟩] ∧
    (⟨some [(0:ℝ), 1], "diss"⟩ : Candidate) ∉
      ([⟨some [(1599:ℝ)/1601, 80/1601], "dup1"⟩,
        ⟨some [(1599:ℝ)/1601, -80/1601], "dup2"⟩] : List Candidate) := by
  have hq : dot [(1:ℝ), 0] [(1:ℝ), 0] = 1 := by norm_num [dot]
  have hd : dot [(0:ℝ), 1] [(0:ℝ), 1] = 1 := by norm_num [dot]
  have ha : dot [(1599:ℝ)/1601, 80/1601] [(1599:ℝ)/1601, 80/1601] = 1 := by norm_num [dot]
  have hb : dot [(1599:ℝ)/1601, -80/1601] [(1599:ℝ)/1601, -80/1601] = 1 := by norm_num [dot]
  have eAB : cossim [(1599:ℝ)/1601, 80/1601] [(1599:ℝ)/1601, -80/1601] = 2550401/2563201 := by
    rw [cossim_eq_dot ha hb]
    norm_num [dot]
  have eBA : cossim [(1599:ℝ)/1601, -80/1601] [(1599:ℝ)/1601, 80/1601] = 2550401/2563201 := by
    rw [cossim_eq_dot hb ha]
    norm_num [dot]
  have eDA : cossim [(0:ℝ), 1] [(1599:ℝ)/1601, 80/1601] = 80/1601 := by
    rw [cossim_eq_dot hd ha]
    norm_num [dot]
  have eDB : cossim [(0:ℝ), 1] [(1599:ℝ)/1601, -80/1601] = -(80/1601) := by
    rw [cossim_eq_dot hd hb]
    norm_num [dot]
  have eQA : cossim [(1:ℝ), 0] [(1599:ℝ)/1601, 80/1601] = 1599/1601 := by
    rw [cossim_eq_dot hq ha]
    norm_num [dot]
  have eQB : cossim [(1:ℝ), 0] [(1599:ℝ)/1601, -80/1601] = 1599/1601 := by
    rw [cossim_eq_dot hq hb]
    norm_num [dot]
  have eQD : cossim [(1:ℝ), 0] [(0:ℝ), 1] = 0 := by
    rw [cossim_eq_dot hq hd]
    norm_num [dot]
  refine ⟨by rw [eAB]; norm_num, by rw [eDA]; norm_num, by rw [eDB]; norm_num, ?_, ?_⟩
  · rw [mmr_rerank_three_eval (1/2) [(1:ℝ), 0] _ _ _ _ _ _ rfl rfl rfl]
    rw [argmaxIdx_three, eQA, eQB, eQD]
    rw [if_pos (by norm_num)]
    rw [show (List.range 3).erase 0 = [1, 2] from rfl,
        show min 1 ([1, 2] : List ℕ).length = 1 from rfl, mmrLoop_two]
    simp only [List.getD_cons_zero, List.getD_cons_succ, eDA, eBA]
    rw [if_pos (by norm_num)]
    rfl
  · intro h
    rcases List.mem_cons.mp h with he | h2
    · exact absurd (congrArg Candidate.tag he) (by decide)
    · rcases List.mem_cons.mp h2 with he | h3
      · exact absurd (congrArg Candidate.tag he) (by decide)
      · cases h3

end MMR






